import Mathlib

/-!
Shallow embedding of the Sc (shape complementarity) surface-generation engine
from `src/sc/surface_generator.rs`, `src/sc/types.rs`, `src/sc/settings.rs` and
`src/sc/atomic_radii.rs`, together with theorems settling the frozen claims.

Floating-point (`f64`) scalars are idealised as real numbers; `usize`/`i32`
counters and ordinals as `ℕ`/`ℤ`.  `Vec3` itself lives in `src/sc/vector3.rs`,
which is not part of the sources at hand; it is modelled from the spec
(§2: "3-vector arithmetic, normalise, dot, cross, distance, distance²").
-/

noncomputable section

namespace ScRs

/-- Modelled from the spec: `vector3.rs` (the `Vec3` component) is not among
the given sources.  The spec describes it as plain 3-vector arithmetic with
dot, cross, distance and squared distance. -/
structure Vec3 where
  x : ℝ
  y : ℝ
  z : ℝ
deriving DecidableEq

namespace Vec3

def zero : Vec3 := ⟨0, 0, 0⟩

instance : Inhabited Vec3 := ⟨zero⟩

def add (a b : Vec3) : Vec3 := ⟨a.x + b.x, a.y + b.y, a.z + b.z⟩

def sub (a b : Vec3) : Vec3 := ⟨a.x - b.x, a.y - b.y, a.z - b.z⟩

def smul (a : Vec3) (c : ℝ) : Vec3 := ⟨a.x * c, a.y * c, a.z * c⟩

def sdiv (a : Vec3) (c : ℝ) : Vec3 := ⟨a.x / c, a.y / c, a.z / c⟩

instance : Add Vec3 := ⟨add⟩

instance : Sub Vec3 := ⟨sub⟩

instance : HMul Vec3 ℝ Vec3 := ⟨smul⟩

instance : HDiv Vec3 ℝ Vec3 := ⟨sdiv⟩

def dot (a b : Vec3) : ℝ := a.x * b.x + a.y * b.y + a.z * b.z

def cross (a b : Vec3) : Vec3 :=
  ⟨a.y * b.z - a.z * b.y, a.z * b.x - a.x * b.z, a.x * b.y - a.y * b.x⟩

def magnitude_squared (a : Vec3) : ℝ := a.x * a.x + a.y * a.y + a.z * a.z

def distance_squared (a b : Vec3) : ℝ := (a - b).magnitude_squared

def distance (a b : Vec3) : ℝ := Real.sqrt (distance_squared a b)

end Vec3

/-- Embeds `Attention` from `types.rs`: atom attention/visibility state. -/
inductive Attention where
  | Far : Attention
  | Consider : Attention
  | Buried : Attention
deriving DecidableEq, Repr

instance : Inhabited Attention := ⟨Attention.Buried⟩

/-- Embeds `Atom` from `types.rs`.  `natom` is the 1-based global ordinal (an `i32`
in the source, always assigned from a running count, hence `ℕ` here);
`molecule` is a `usize`; names are the raw strings. -/
structure Atom where
  natom : ℕ
  molecule : ℕ
  radius : ℝ
  atom_type_radius : ℝ
  density : ℝ
  attention : Attention
  accessible : Bool
  atomName : String
  residue : String
  coor : Vec3
  neighbor_indices : List ℕ
  buried_by_indices : List ℕ

instance : Inhabited Atom :=
  ⟨⟨0, 0, 0, 0, 0, Attention.Buried, false, "", "", Vec3.zero, [], []⟩⟩

def Atom.distance_squared (a b : Atom) : ℝ := Vec3.distance_squared a.coor b.coor

def Atom.distance (a b : Atom) : ℝ := Vec3.distance a.coor b.coor

/-- Embeds `Probe` from `types.rs`: the `[usize; 3]` index triple is embedded as a
triple of naturals. -/
structure Probe where
  atomIndices : ℕ × ℕ × ℕ
  height : ℝ
  point : Vec3
  alt : Vec3

/-- Embeds `DotKind` from `types.rs`. -/
inductive DotKind where
  | Contact : DotKind
  | Reentrant : DotKind
  | Cavity : DotKind
deriving DecidableEq, Repr

/-- Embeds `Dot` from `types.rs`. -/
structure Dot where
  coor : Vec3
  outnml : Vec3
  area : ℝ
  buried : Bool
  kind : DotKind
  atom_index : ℕ

/-- Embeds `DotStats` from `types.rs`. -/
structure DotStats where
  convex : ℕ
  toroidal : ℕ
  concave : ℕ

instance : Inhabited DotStats := ⟨⟨0, 0, 0⟩⟩

/-- Embeds `SurfaceStats` from `types.rs`. -/
structure SurfaceStats where
  n_atoms : ℕ
  n_buried_atoms : ℕ
  n_blocked_atoms : ℕ
  d_mean : ℝ
  d_median : ℝ
  s_mean : ℝ
  s_median : ℝ
  n_all_dots : ℕ
  n_trimmed_dots : ℕ
  trimmed_area : ℝ

instance : Inhabited SurfaceStats := ⟨⟨0, 0, 0, 0, 0, 0, 0, 0, 0, 0⟩⟩

/-- Embeds `Results` from `types.rs`; the two-element `surfaces` array is a pair. -/
structure Results where
  valid : ℤ
  n_atoms : ℕ
  surfaces : SurfaceStats × SurfaceStats
  combined : SurfaceStats
  dots : DotStats
  sc : ℝ
  distance : ℝ
  area : ℝ

instance : Inhabited Results := ⟨⟨0, 0, (default, default), default, default, 0, 0, 0⟩⟩

/-- Embeds `Settings` from `settings.rs`. -/
structure Settings where
  rp : ℝ
  dot_density : ℝ
  peripheral_band : ℝ
  separation_cutoff : ℝ
  gaussian_w : ℝ
  use_atom_type_radius : Bool
  enable_parallel : Bool

/-- Embeds `Settings::default()` from `settings.rs`. -/
def Settings.default : Settings :=
  { rp := 17/10
    dot_density := 15
    peripheral_band := 3/2
    separation_cutoff := 8
    gaussian_w := 1/2
    use_atom_type_radius := false
    enable_parallel := true }

/-- Embeds `AtomRadius` from `types.rs`. -/
structure AtomRadius where
  residue : String
  atom : String
  radius : ℝ

/-- The payload of the `Coincident` error.  The source formats a message
string from exactly these fields of the two offending atoms
(`surface_generator.rs` lines 223–227 and 362–366); the embedding keeps the
fields structurally instead of rendering `f64`s into text. -/
structure CoincidentInfo where
  natom1 : ℕ
  residue1 : String
  atomName1 : String
  coor1 : Vec3
  natom2 : ℕ
  residue2 : String
  atomName2 : String
  coor2 : Vec3

/-- Embeds `SurfaceCalculatorError` from `surface_generator.rs` lines 12–22.  The
source's `Io(std::io::Error)` variant is embedded as `IoError` carrying the
message string; `Coincident(String)` carries its formatted fields
structurally. -/
inductive SurfaceCalculatorError where
  | NoAtoms : SurfaceCalculatorError
  | JumpOutOfBounds : SurfaceCalculatorError
  | IoError : String → SurfaceCalculatorError
  | Coincident : CoincidentInfo → SurfaceCalculatorError
  | ImagFar : ℕ → ℕ → SurfaceCalculatorError
  | ImagContain : ℕ → ℕ → SurfaceCalculatorError
  | NonPositiveFrame : ℕ → ℕ → SurfaceCalculatorError
  | TooManySubdivisions : SurfaceCalculatorError

/-- Embeds `rtrim_spaces` from `atomic_radii.rs::wildcard_match`: drop trailing
ASCII spaces. -/
def rtrimSpaces (s : List Char) : List Char :=
  ((s.reverse).dropWhile (fun c => c = ' ')).reverse

/-- Embeds `wildcard_match` from `atomic_radii.rs` lines 27–48, on the character
lists of the two strings (the source works on ASCII byte slices, so byte
positions and character positions agree). -/
def wildcard_match (query pat : List Char) : Bool :=
  let q := rtrimSpaces query
  let p := rtrimSpaces pat
  if p.take 1 = ['*'] then true
  else if p.contains '*' then
    let plen := p.takeWhile (fun c => c ≠ '*') |>.length
    if q.length < plen then false else decide (q.take plen = p.take plen)
  else decide (q = p)

/-- The main lookup loop of `assign_atom_radius` (`surface_generator.rs`
lines 98–110): the first table record whose residue and atom patterns both
match supplies the radius. -/
def radiiScan (residue atomName : String) : List AtomRadius → Option ℝ
  | [] => none
  | r :: rest =>
    if ¬ wildcard_match residue.data r.residue.data then radiiScan residue atomName rest
    else if ¬ wildcard_match atomName.data r.atom.data then radiiScan residue atomName rest
    else some r.radius

/-- The element-fallback loop of `assign_atom_radius` (lines 111–127): the
first record with a `***`-residue pattern whose trimmed atom field equals the
single-character element string. -/
def elemScan (elemStr : String) : List AtomRadius → Option ℝ
  | [] => none
  | r :: rest =>
    if ¬ (r.residue.trim.startsWith ("***")) then elemScan elemStr rest
    else if r.atom.trim ≠ elemStr then elemScan elemStr rest
    else some r.radius

/-- Embeds `assign_atom_radius` from `surface_generator.rs` lines 92–130 (the debug
tracing to stderr is elided).  The source's sentinel element `' '` (no
alphabetic character found) is embedded as `Option.none`. -/
def assign_atom_radius (settings : Settings) (radii : List AtomRadius) (atom : Atom) :
    Except SurfaceCalculatorError Atom :=
  if settings.use_atom_type_radius then
    if atom.atom_type_radius ≠ 0 then Except.ok { atom with radius := atom.atom_type_radius }
    else Except.error (SurfaceCalculatorError.IoError ("Missing atom_type_radius"))
  else
    match radiiScan atom.residue atom.atomName radii with
    | some r => Except.ok { atom with radius := r }
    | none =>
      match (atom.atomName.data.find? (fun c => c.isAlpha)).map Char.toUpper with
      | some c =>
        match elemScan (String.mk [c]) radii with
        | some r => Except.ok { atom with radius := r }
        | none =>
          Except.error (SurfaceCalculatorError.IoError
            ("No radius for " ++ atom.residue ++ ":" ++ atom.atomName))
      | none =>
        Except.error (SurfaceCalculatorError.IoError
          ("No radius for " ++ atom.residue ++ ":" ++ atom.atomName))

/-- The mutable engine state touched by `add_atom` (`RunState.atoms` and
`RunState.results`). -/
structure RunLite where
  atoms : List Atom
  results : Results

/-- Embeds `add_atom` from `surface_generator.rs` lines 73–90.  The radii table is a
parameter (the source lazily loads it in `init`, an I/O action outside this
embedding); the `molecule` argument is the source's `i32`. -/
def add_atom (settings : Settings) (radii : List AtomRadius) (run : RunLite)
    (molecule : ℤ) (atom0 : Atom) : Except SurfaceCalculatorError RunLite := do
  let atom ← if atom0.radius ≤ 0 then assign_atom_radius settings radii atom0 else pure atom0
  if atom.radius > 0 then
    let mol : ℕ := if molecule = 1 then 1 else 0
    let atom := { atom with
      density := settings.dot_density
      molecule := mol
      natom := run.results.n_atoms + 1
      accessible := false }
    let surfaces := run.results.surfaces
    let surfaces :=
      if mol = 0 then ({ surfaces.1 with n_atoms := surfaces.1.n_atoms + 1 }, surfaces.2)
      else (surfaces.1, { surfaces.2 with n_atoms := surfaces.2.n_atoms + 1 })
    Except.ok { atoms := run.atoms ++ [atom]
                results := { run.results with
                  surfaces := surfaces
                  n_atoms := run.results.n_atoms + 1 } }
  else
    Except.error (SurfaceCalculatorError.IoError ("Failed to assign atom radius"))

/-- Every error produced by `assign_atom_radius` is the `Io` kind of
`SurfaceCalculatorError` (the source builds each of them with
`std::io::Error::other`). -/
theorem assign_atom_radius_error_kind (settings : Settings) (radii : List AtomRadius)
    (atom : Atom) (e : SurfaceCalculatorError)
    (h : assign_atom_radius settings radii atom = Except.error e) :
    ∃ msg, e = SurfaceCalculatorError.IoError msg := by
  unfold assign_atom_radius at h
  split at h
  · split at h
    · exact absurd h (by simp)
    · exact ⟨"Missing atom_type_radius", by simpa using h.symm⟩
  · split at h
    · exact absurd h (by simp)
    · split at h
      · split at h
        · exact absurd h (by simp)
        · exact ⟨_, by simpa using h.symm⟩
      · exact ⟨_, by simpa using h.symm⟩

/-- A concrete atom with no preset radius whose residue/atom names match
nothing. -/
def atomNoRadius : Atom :=
  { natom := 0, molecule := 0, radius := 0, atom_type_radius := 0, density := 0,
    attention := Attention.Buried, accessible := false, atomName := "QQ",
    residue := "XYZ", coor := Vec3.zero, neighbor_indices := [], buried_by_indices := [] }

/-- The same atom with a caller-supplied positive radius. -/
def atomUnit : Atom := { atomNoRadius with radius := 1 }

/-- An empty engine state. -/
def runEmpty : RunLite := { atoms := [], results := default }

/-- Against an empty radii table, resolution of `atomNoRadius` fails with the
`Io`-kind "No radius" error. -/
theorem assign_atom_radius_demo_eval :
    assign_atom_radius Settings.default [] atomNoRadius =
      Except.error (SurfaceCalculatorError.IoError ("No radius for XYZ:QQ")) := by
  rfl

/-- Evaluating `add_atom` on `atomNoRadius` with an empty table propagates that error. -/
theorem add_atom_demo_eval :
    add_atom Settings.default [] runEmpty 0 atomNoRadius =
      Except.error (SurfaceCalculatorError.IoError ("No radius for XYZ:QQ")) := by
  unfold add_atom
  rw [if_pos (by norm_num [atomNoRadius])]
  rw [assign_atom_radius_demo_eval]
  rfl

/-- C7 (counterexample): for an atom whose radius cannot be resolved
(`atomNoRadius` against an empty table), `add_atom` fails — but with the `Io`
kind of `SurfaceCalculatorError`; the source error enum has no
`MissingRadius` kind at all, so the failure cannot be of that kind. -/
theorem claim7_missing_radius_kind_cex :
    add_atom Settings.default [] runEmpty 0 atomNoRadius =
      Except.error (SurfaceCalculatorError.IoError ("No radius for XYZ:QQ")) ∧
    (∀ e, add_atom Settings.default [] runEmpty 0 atomNoRadius = Except.error e →
      ∃ msg, e = SurfaceCalculatorError.IoError msg) :=
  ⟨add_atom_demo_eval, fun e he => by
    rw [add_atom_demo_eval] at he
    exact ⟨"No radius for XYZ:QQ", (Except.error.inj he).symm⟩⟩

/-- C7 (amended): for every atom whose radius cannot be resolved to a
positive value, `add_atom` fails with an `Io`-kind error (and, the call
returning an error, the store is left untouched). -/
theorem claim7_missing_radius_amended (settings : Settings) (radii : List AtomRadius)
    (run : RunLite) (molecule : ℤ) (atom0 : Atom)
    (h0 : atom0.radius ≤ 0)
    (hres : ∀ a', assign_atom_radius settings radii atom0 = Except.ok a' → a'.radius ≤ 0) :
    ∃ msg, add_atom settings radii run molecule atom0 =
      Except.error (SurfaceCalculatorError.IoError msg) := by
  unfold add_atom
  rw [if_pos h0]
  cases hass : assign_atom_radius settings radii atom0 with
  | error e =>
    obtain ⟨msg, rfl⟩ := assign_atom_radius_error_kind settings radii atom0 e hass
    exact ⟨msg, rfl⟩
  | ok a' =>
    have hr : ¬ a'.radius > 0 := not_lt.mpr (hres a' hass)
    refine ⟨"Failed to assign atom radius", ?_⟩
    show (pure a' >>= fun atom => _) = _
    rw [pure_bind, if_neg hr]

/-- C7 (witness for the amended theorem). -/
theorem claim7_missing_radius_amended_witness :
    atomNoRadius.radius ≤ 0 ∧
    (∃ msg, add_atom Settings.default [] runEmpty 0 atomNoRadius =
      Except.error (SurfaceCalculatorError.IoError msg)) :=
  ⟨by norm_num [atomNoRadius],
   claim7_missing_radius_amended Settings.default [] runEmpty 0 atomNoRadius
     (by norm_num [atomNoRadius])
     (fun a' h => by rw [assign_atom_radius_demo_eval] at h; exact absurd h (by simp))⟩

/-- C10: `add_atom` accepts any integer molecule argument; the stored atom's
molecule is `1` exactly when the argument is `1` and `0` for every other
value. -/
theorem claim10_add_atom_molecule_mapping (settings : Settings) (radii : List AtomRadius)
    (run : RunLite) (molecule : ℤ) (atom0 : Atom) (h : 0 < atom0.radius) :
    ∃ run', add_atom settings radii run molecule atom0 = Except.ok run' ∧
      run'.atoms = run.atoms ++ [{ atom0 with
          density := settings.dot_density,
          molecule := if molecule = 1 then 1 else 0,
          natom := run.results.n_atoms + 1,
          accessible := false }] ∧
      ((if molecule = 1 then (1:ℕ) else 0) = 1 ↔ molecule = 1) := by
  have heq : add_atom settings radii run molecule atom0 = Except.ok
      { atoms := run.atoms ++ [{ atom0 with
          density := settings.dot_density,
          molecule := if molecule = 1 then 1 else 0,
          natom := run.results.n_atoms + 1,
          accessible := false }],
        results := { run.results with
          surfaces := if (if molecule = 1 then (1:ℕ) else 0) = 0
            then ({ run.results.surfaces.1 with n_atoms := run.results.surfaces.1.n_atoms + 1 },
                  run.results.surfaces.2)
            else (run.results.surfaces.1,
                  { run.results.surfaces.2 with n_atoms := run.results.surfaces.2.n_atoms + 1 }),
          n_atoms := run.results.n_atoms + 1 } } := by
    unfold add_atom
    rw [if_neg (not_le.mpr h)]
    show (pure atom0 >>= fun atom => _) = _
    rw [pure_bind, if_pos h]
  refine ⟨_, heq, rfl, ?_, ?_⟩
  · intro h1
    by_contra hne
    rw [if_neg hne] at h1
    exact absurd h1 (by norm_num)
  · intro h1
    rw [if_pos h1]

/-- C10 (witness): molecule id `2` is accepted and silently stored as
molecule `0`. -/
theorem claim10_add_atom_molecule_mapping_witness :
    (0:ℝ) < atomUnit.radius ∧
    (∃ run', add_atom Settings.default [] runEmpty 2 atomUnit = Except.ok run' ∧
      run'.atoms = runEmpty.atoms ++ [{ atomUnit with
          density := Settings.default.dot_density,
          molecule := if (2:ℤ) = 1 then 1 else 0,
          natom := runEmpty.results.n_atoms + 1,
          accessible := false }] ∧
      ((if (2:ℤ) = 1 then (1:ℕ) else 0) = 1 ↔ (2:ℤ) = 1)) :=
  ⟨by norm_num [atomUnit, atomNoRadius],
   claim10_add_atom_molecule_mapping Settings.default [] runEmpty 2 atomUnit
     (by norm_num [atomUnit, atomNoRadius])⟩

/-- The burial scan of `add_dot` (`surface_generator.rs` lines 718–726): walk
the atom store, skip atoms not in the opposite molecule, and stop at the
first atom `b` with `|pcen − b.coor|² ≤ (r_b + rp)²`.  The identical loop is
inlined in `generate_contact_surface_parallel` (lines 325–331) and
`generate_concave_surface_parallel` (lines 689–695). -/
def buriedScan (rp : ℝ) (other_mol : ℕ) (pcen : Vec3) : List Atom → Bool
  | [] => false
  | b :: rest =>
    if b.molecule ≠ other_mol then buriedScan rp other_mol pcen rest
    else if Vec3.distance_squared pcen b.coor ≤ (b.radius + rp) * (b.radius + rp) then true
    else buriedScan rp other_mol pcen rest

/-- Embeds `add_dot` from `surface_generator.rs` lines 715–729, returning the dot it
pushes onto `dots[molecule]`. -/
def add_dot (atoms : List Atom) (settings : Settings) (molecule : ℕ) (kind : DotKind)
    (coor : Vec3) (area : ℝ) (pcen : Vec3) (atom_index : ℕ) : Dot :=
  let atom := atoms.getD atom_index default
  let outnml := if settings.rp ≤ 0 then coor - atom.coor else (pcen - coor) / settings.rp
  let other_mol : ℕ := if molecule = 0 then 1 else 0
  let buried := buriedScan settings.rp other_mol pcen atoms
  { coor := coor, outnml := outnml, area := area, buried := buried,
    kind := kind, atom_index := atom_index }

/-- The burial scan is true exactly when some opposite-molecule atom is close
enough to the generating sphere centre. -/
theorem buriedScan_iff (rp : ℝ) (other_mol : ℕ) (pcen : Vec3) (atoms : List Atom) :
    buriedScan rp other_mol pcen atoms = true ↔
      ∃ b ∈ atoms, b.molecule = other_mol ∧
        Vec3.distance_squared pcen b.coor ≤ (b.radius + rp) * (b.radius + rp) := by
  induction atoms with
  | nil => simp [buriedScan]
  | cons b rest ih =>
    by_cases hmol : b.molecule ≠ other_mol
    · rw [buriedScan, if_pos hmol, ih]
      constructor
      · rintro ⟨c, hc, hcm, hcd⟩
        exact ⟨c, List.mem_cons_of_mem _ hc, hcm, hcd⟩
      · rintro ⟨c, hc, hcm, hcd⟩
        rcases List.mem_cons.mp hc with h1 | h1
        · exact absurd (h1 ▸ hcm) hmol
        · exact ⟨c, h1, hcm, hcd⟩
    · push_neg at hmol
      by_cases hd : Vec3.distance_squared pcen b.coor ≤ (b.radius + rp) * (b.radius + rp)
      · rw [buriedScan, if_neg (by simpa using hmol), if_pos hd]
        simp only [List.mem_cons, true_iff]
        exact ⟨b, Or.inl rfl, hmol, hd⟩
      · rw [buriedScan, if_neg (by simpa using hmol), if_neg hd, ih]
        constructor
        · rintro ⟨c, hc, hcm, hcd⟩
          exact ⟨c, List.mem_cons_of_mem _ hc, hcm, hcd⟩
        · rintro ⟨c, hc, hcm, hcd⟩
          rcases List.mem_cons.mp hc with h1 | h1
          · exact absurd (h1 ▸ hcd) hd
          · exact ⟨c, h1, hcm, hcd⟩

/-- C2: an emitted dot is flagged buried exactly when some atom `b` of the
molecule opposite to the dot's molecule satisfies
`|pcen − b.center|² ≤ (r_b + rp)²`, where `pcen` is the generating sphere
centre handed to `add_dot` (the expanded atom centre for Contact dots, the
ring point for Reentrant dots, the probe centre for Cavity dots — see the
call sites at lines 519, 526, 587 and 633). -/
theorem claim2_dot_buried_iff (atoms : List Atom) (settings : Settings) (molecule : ℕ)
    (kind : DotKind) (coor : Vec3) (area : ℝ) (pcen : Vec3) (atom_index : ℕ) :
    (add_dot atoms settings molecule kind coor area pcen atom_index).buried = true ↔
      ∃ b ∈ atoms, b.molecule = (if molecule = 0 then 1 else 0) ∧
        Vec3.distance_squared pcen b.coor ≤
          (b.radius + settings.rp) * (b.radius + settings.rp) :=
  buriedScan_iff settings.rp (if molecule = 0 then 1 else 0) pcen atoms

/-- The running-minimum step of `assign_attention_numbers` (lines 144–150):
skip same-molecule atoms, otherwise keep the smaller squared distance.  The
source's `f64::INFINITY` start value is embedded as `Option.none`. -/
def distMinStep (a1 : Atom) (acc : Option ℝ) (a2 : Atom) : Option ℝ :=
  if a2.molecule = a1.molecule then acc
  else
    match acc with
    | none => some (a1.distance_squared a2)
    | some m =>
      if a1.distance_squared a2 < m then some (a1.distance_squared a2) else some m

/-- Computes `dist_min2` of `assign_attention_numbers`: the minimum squared distance
from `a1` to any atom of the other molecule (`none` when there is none). -/
def distMin2 (atoms : List Atom) (a1 : Atom) : Option ℝ :=
  atoms.foldl (distMinStep a1) none

/-- The attention value `assign_attention_numbers` gives one atom
(lines 153–161): `Far` when `dist_min2 ≥ separation_cutoff²` (in particular
when there is no opposite-molecule atom at all), else `Buried`. -/
def attentionFlag (st : Settings) (atoms : List Atom) (a1 : Atom) : Attention :=
  match distMin2 atoms a1 with
  | none => Attention.Far
  | some m =>
    if st.separation_cutoff * st.separation_cutoff ≤ m then Attention.Far
    else Attention.Buried

/-- Embeds `surfaces[mol].n_blocked_atoms += 1`. -/
def bumpBlocked (res : Results) (mol : ℕ) : Results :=
  { res with surfaces :=
      if mol = 0 then
        ({ res.surfaces.1 with n_blocked_atoms := res.surfaces.1.n_blocked_atoms + 1 },
         res.surfaces.2)
      else
        (res.surfaces.1,
         { res.surfaces.2 with n_blocked_atoms := res.surfaces.2.n_blocked_atoms + 1 }) }

/-- Embeds `surfaces[mol].n_buried_atoms += 1`. -/
def bumpBuried (res : Results) (mol : ℕ) : Results :=
  { res with surfaces :=
      if mol = 0 then
        ({ res.surfaces.1 with n_buried_atoms := res.surfaces.1.n_buried_atoms + 1 },
         res.surfaces.2)
      else
        (res.surfaces.1,
         { res.surfaces.2 with n_buried_atoms := res.surfaces.2.n_buried_atoms + 1 }) }

/-- The counter reset at the start of `assign_attention_numbers`
(lines 134–137). -/
def resetAttentionCounters (res : Results) : Results :=
  { res with surfaces :=
      ({ res.surfaces.1 with n_buried_atoms := 0, n_blocked_atoms := 0 },
       { res.surfaces.2 with n_buried_atoms := 0, n_blocked_atoms := 0 }) }

/-- The per-atom loop of `assign_attention_numbers` (lines 153–162): set each
atom's attention and bump the matching per-molecule counter. -/
def assignLoop (st : Settings) (atoms0 : List Atom) :
    List Atom → Results → (List Atom × Results)
  | [], res => ([], res)
  | a :: rest, res =>
    let att := attentionFlag st atoms0 a
    let res' := if att = Attention.Far then bumpBlocked res a.molecule
                else bumpBuried res a.molecule
    let out := assignLoop st atoms0 rest res'
    ({ a with attention := att } :: out.1, out.2)

/-- Embeds `assign_attention_numbers` from `surface_generator.rs` lines 132–163. -/
def assign_attention_numbers (st : Settings) (atoms : List Atom) (res : Results) :
    List Atom × Results :=
  assignLoop st atoms atoms (resetAttentionCounters res)

/-- Characterisation of the running minimum: every `some` value it can end in
is at least `c` exactly when the seed and every opposite-molecule distance
are. -/
theorem foldMin_ge_iff (c : ℝ) (a1 : Atom) (l : List Atom) (acc : Option ℝ) :
    (∀ m, l.foldl (distMinStep a1) acc = some m → c ≤ m) ↔
      ((∀ m, acc = some m → c ≤ m) ∧
        ∀ b ∈ l, b.molecule ≠ a1.molecule → c ≤ a1.distance_squared b) := by
  induction l generalizing acc with
  | nil => simp
  | cons b rest ih =>
    rw [List.foldl_cons, ih]
    by_cases hm : b.molecule = a1.molecule
    · simp only [distMinStep, if_pos hm]
      constructor
      · rintro ⟨h1, h2⟩
        exact ⟨h1, by
          intro b' hb' hbm
          rcases List.mem_cons.mp hb' with h3 | h3
          · exact absurd (h3 ▸ hm) (h3 ▸ hbm)
          · exact h2 b' h3 hbm⟩
      · rintro ⟨h1, h2⟩
        exact ⟨h1, fun b' hb' hbm => h2 b' (List.mem_cons_of_mem _ hb') hbm⟩
    · cases acc with
      | none =>
        simp only [distMinStep, if_neg hm]
        constructor
        · rintro ⟨h1, h2⟩
          refine ⟨by simp, ?_⟩
          intro b' hb' hbm
          rcases List.mem_cons.mp hb' with h3 | h3
          · exact h3 ▸ h1 _ rfl
          · exact h2 b' h3 hbm
        · rintro ⟨h1, h2⟩
          refine ⟨?_, fun b' hb' hbm => h2 b' (List.mem_cons_of_mem _ hb') hbm⟩
          intro m hmendo
          obtain rfl : a1.distance_squared b = m := Option.some.inj hmendo
          exact h2 b (List.mem_cons_self _ _) hm
      | some m0 =>
        simp only [distMinStep, if_neg hm]
        by_cases hlt : a1.distance_squared b < m0
        · rw [if_pos hlt]
          constructor
          · rintro ⟨h1, h2⟩
            have hcd : c ≤ a1.distance_squared b := h1 _ rfl
            refine ⟨?_, ?_⟩
            · intro m hmm
              obtain rfl : m0 = m := Option.some.inj hmm
              exact le_of_lt (lt_of_le_of_lt hcd hlt)
            · intro b' hb' hbm
              rcases List.mem_cons.mp hb' with h3 | h3
              · exact h3 ▸ hcd
              · exact h2 b' h3 hbm
          · rintro ⟨h1, h2⟩
            refine ⟨?_, fun b' hb' hbm => h2 b' (List.mem_cons_of_mem _ hb') hbm⟩
            intro m hmm
            obtain rfl : a1.distance_squared b = m := Option.some.inj hmm
            exact h2 b (List.mem_cons_self _ _) hm
        · rw [if_neg hlt]
          constructor
          · rintro ⟨h1, h2⟩
            refine ⟨h1, ?_⟩
            intro b' hb' hbm
            rcases List.mem_cons.mp hb' with h3 | h3
            · exact h3 ▸ le_trans (h1 _ rfl) (not_lt.mp hlt)
            · exact h2 b' h3 hbm
          · rintro ⟨h1, h2⟩
            exact ⟨h1, fun b' hb' hbm => h2 b' (List.mem_cons_of_mem _ hb') hbm⟩

/-- The attention flag is `Far` exactly when every opposite-molecule atom is
at squared distance at least `separation_cutoff²`. -/
theorem attentionFlag_far_iff (st : Settings) (atoms : List Atom) (a1 : Atom) :
    attentionFlag st atoms a1 = Attention.Far ↔
      ∀ b ∈ atoms, b.molecule ≠ a1.molecule →
        st.separation_cutoff * st.separation_cutoff ≤ a1.distance_squared b := by
  have key := foldMin_ge_iff (st.separation_cutoff * st.separation_cutoff) a1 atoms none
  simp only [Option.some.injEq, forall_eq', reduceCtorEq, false_implies, implies_true,
    true_and] at key
  rw [← key]
  unfold attentionFlag distMin2
  cases h : atoms.foldl (distMinStep a1) none with
  | none => simp [h]
  | some m =>
    dsimp only
    constructor
    · intro h1 m' hm'
      obtain rfl : m = m' := Option.some.inj hm'
      by_contra hc
      rw [if_neg hc] at h1
      exact absurd h1 (by simp)
    · intro h1
      rw [if_pos (h1 m rfl)]

/-- The flag is always `Far` or `Buried` (never `Consider`). -/
theorem attentionFlag_ne_consider (st : Settings) (atoms : List Atom) (a1 : Atom) :
    attentionFlag st atoms a1 = Attention.Far ∨ attentionFlag st atoms a1 = Attention.Buried := by
  unfold attentionFlag
  cases distMin2 atoms a1 with
  | none => exact Or.inl rfl
  | some m =>
    dsimp only
    by_cases hc : st.separation_cutoff * st.separation_cutoff ≤ m
    · exact Or.inl (by rw [if_pos hc])
    · exact Or.inr (by rw [if_neg hc])

/-- What one pass of `assignLoop` does: it stamps every atom with its
attention flag and adds, to each of the four counters, the number of atoms
falling in that (molecule, Far/Buried) bucket. -/
theorem assignLoop_spec (st : Settings) (atoms0 : List Atom) (l : List Atom) (res : Results) :
    (assignLoop st atoms0 l res).1 =
      l.map (fun a => { a with attention := attentionFlag st atoms0 a }) ∧
    (assignLoop st atoms0 l res).2.surfaces.1.n_blocked_atoms =
      res.surfaces.1.n_blocked_atoms +
        l.countP (fun a => decide (a.molecule = 0) &&
          decide (attentionFlag st atoms0 a = Attention.Far)) ∧
    (assignLoop st atoms0 l res).2.surfaces.2.n_blocked_atoms =
      res.surfaces.2.n_blocked_atoms +
        l.countP (fun a => (! decide (a.molecule = 0)) &&
          decide (attentionFlag st atoms0 a = Attention.Far)) ∧
    (assignLoop st atoms0 l res).2.surfaces.1.n_buried_atoms =
      res.surfaces.1.n_buried_atoms +
        l.countP (fun a => decide (a.molecule = 0) &&
          (! decide (attentionFlag st atoms0 a = Attention.Far))) ∧
    (assignLoop st atoms0 l res).2.surfaces.2.n_buried_atoms =
      res.surfaces.2.n_buried_atoms +
        l.countP (fun a => (! decide (a.molecule = 0)) &&
          (! decide (attentionFlag st atoms0 a = Attention.Far))) := by
  induction l generalizing res with
  | nil => simp [assignLoop]
  | cons a rest ih =>
    by_cases hf : attentionFlag st atoms0 a = Attention.Far
    · obtain ⟨ih1, ih2, ih3, ih4, ih5⟩ := ih (bumpBlocked res a.molecule)
      refine ⟨?_, ?_, ?_, ?_, ?_⟩
      · simp only [assignLoop, hf, if_pos, List.map_cons]
        rw [ih1]
      · simp only [assignLoop, hf, if_pos, List.countP_cons]
        rw [ih2]
        by_cases hm : a.molecule = 0
        · simp [bumpBlocked, hm, hf]
          omega
        · simp [bumpBlocked, hm, hf]
      · simp only [assignLoop, hf, if_pos, List.countP_cons]
        rw [ih3]
        by_cases hm : a.molecule = 0
        · simp [bumpBlocked, hm, hf]
        · simp [bumpBlocked, hm, hf]
          omega
      · simp only [assignLoop, hf, if_pos, List.countP_cons]
        rw [ih4]
        by_cases hm : a.molecule = 0
        · simp [bumpBlocked, hm, hf]
        · simp [bumpBlocked, hm, hf]
      · simp only [assignLoop, hf, if_pos, List.countP_cons]
        rw [ih5]
        by_cases hm : a.molecule = 0
        · simp [bumpBlocked, hm, hf]
        · simp [bumpBlocked, hm, hf]
    · obtain ⟨ih1, ih2, ih3, ih4, ih5⟩ := ih (bumpBuried res a.molecule)
      refine ⟨?_, ?_, ?_, ?_, ?_⟩
      · simp only [assignLoop, hf, if_neg, if_false, List.map_cons]
        rw [ih1]
      · simp only [assignLoop, hf, if_neg, if_false, List.countP_cons]
        rw [ih2]
        by_cases hm : a.molecule = 0
        · simp [bumpBuried, hm, hf]
        · simp [bumpBuried, hm, hf]
      · simp only [assignLoop, hf, if_neg, if_false, List.countP_cons]
        rw [ih3]
        by_cases hm : a.molecule = 0
        · simp [bumpBuried, hm, hf]
        · simp [bumpBuried, hm, hf]
      · simp only [assignLoop, hf, if_neg, if_false, List.countP_cons]
        rw [ih4]
        by_cases hm : a.molecule = 0
        · simp [bumpBuried, hm, hf]
          omega
        · simp [bumpBuried, hm, hf]
      · simp only [assignLoop, hf, if_neg, if_false, List.countP_cons]
        rw [ih5]
        by_cases hm : a.molecule = 0
        · simp [bumpBuried, hm, hf]
        · simp [bumpBuried, hm, hf]
          omega

/-- Reading `getD` through `map` at a valid index. -/
theorem getD_map_lt {α β : Type} [Inhabited α] [Inhabited β] (f : α → β) (l : List α)
    (i : ℕ) (h : i < l.length) : (l.map f).getD i default = f (l.getD i default) := by
  rw [List.getD_eq_getElem _ _ (by simpa using h), List.getD_eq_getElem _ _ h,
    List.getElem_map]

/-- C4: after attention classification, an atom is `Far` exactly when its
minimum squared distance to the opposite molecule is at least
`separation_cutoff²` (vacuously so when it has no opposite-molecule atoms),
every other atom is `Buried`, and the per-molecule `n_blocked_atoms` /
`n_buried_atoms` counters hold exactly the sizes of those buckets — for any
incoming `Results`, i.e. the counters are reset at the start of each
classification. -/
theorem claim4_attention_classification (st : Settings) (atoms : List Atom) (res : Results)
    (hmol : ∀ a ∈ atoms, a.molecule < 2) :
    (∀ i, i < atoms.length →
      ((((assign_attention_numbers st atoms res).1.getD i default).attention =
          Attention.Far ↔
        ∀ b ∈ atoms, b.molecule ≠ (atoms.getD i default).molecule →
          st.separation_cutoff * st.separation_cutoff ≤
            (atoms.getD i default).distance_squared b) ∧
      (((assign_attention_numbers st atoms res).1.getD i default).attention =
          Attention.Far ∨
       ((assign_attention_numbers st atoms res).1.getD i default).attention =
          Attention.Buried))) ∧
    (assign_attention_numbers st atoms res).2.surfaces.1.n_blocked_atoms =
      atoms.countP (fun a => decide (a.molecule = 0) &&
        decide (attentionFlag st atoms a = Attention.Far)) ∧
    (assign_attention_numbers st atoms res).2.surfaces.2.n_blocked_atoms =
      atoms.countP (fun a => decide (a.molecule = 1) &&
        decide (attentionFlag st atoms a = Attention.Far)) ∧
    (assign_attention_numbers st atoms res).2.surfaces.1.n_buried_atoms =
      atoms.countP (fun a => decide (a.molecule = 0) &&
        (! decide (attentionFlag st atoms a = Attention.Far))) ∧
    (assign_attention_numbers st atoms res).2.surfaces.2.n_buried_atoms =
      atoms.countP (fun a => decide (a.molecule = 1) &&
        (! decide (attentionFlag st atoms a = Attention.Far))) := by
  obtain ⟨h1, h2, h3, h4, h5⟩ := assignLoop_spec st atoms atoms (resetAttentionCounters res)
  have hmol1 : ∀ a ∈ atoms,
      (((! decide (a.molecule = 0)) && decide (attentionFlag st atoms a = Attention.Far)) = true ↔
      (decide (a.molecule = 1) && decide (attentionFlag st atoms a = Attention.Far)) = true) := by
    intro a ha
    have := hmol a ha
    interval_cases h : a.molecule <;> simp
  have hmol2 : ∀ a ∈ atoms,
      (((! decide (a.molecule = 0)) && (! decide (attentionFlag st atoms a = Attention.Far))) = true ↔
      (decide (a.molecule = 1) && (! decide (attentionFlag st atoms a = Attention.Far))) = true) := by
    intro a ha
    have := hmol a ha
    interval_cases h : a.molecule <;> simp
  refine ⟨?_, ?_, ?_, ?_, ?_⟩
  · intro i hi
    have hGet : ((assign_attention_numbers st atoms res).1.getD i default) =
        { (atoms.getD i default) with
          attention := attentionFlag st atoms (atoms.getD i default) } := by
      unfold assign_attention_numbers
      rw [h1, getD_map_lt _ _ _ hi]
    rw [hGet]
    exact ⟨attentionFlag_far_iff st atoms (atoms.getD i default),
      attentionFlag_ne_consider st atoms (atoms.getD i default)⟩
  · unfold assign_attention_numbers
    rw [h2]
    simp [resetAttentionCounters]
  · unfold assign_attention_numbers
    rw [h3, List.countP_congr hmol1]
    simp [resetAttentionCounters]
  · unfold assign_attention_numbers
    rw [h4]
    simp [resetAttentionCounters]
  · unfold assign_attention_numbers
    rw [h5, List.countP_congr hmol2]
    simp [resetAttentionCounters]

/-- A two-atom witness system: one atom per molecule, 1 Å apart. -/
def atomW0 : Atom := { atomNoRadius with natom := 1, molecule := 0, radius := 17/10 }

/-- Second witness atom, molecule 1, at (1,0,0). -/
def atomW1 : Atom :=
  { atomNoRadius with natom := 2, molecule := 1, radius := 17/10, coor := ⟨1, 0, 0⟩ }

/-- The two-atom witness store. -/
def atomsW : List Atom := [atomW0, atomW1]

/-- C4 (witness): the classification theorem applied to the concrete two-atom
system. -/
theorem claim4_attention_classification_witness :
    (∀ a ∈ atomsW, a.molecule < 2) ∧
    ((∀ i, i < atomsW.length →
      ((((assign_attention_numbers Settings.default atomsW default).1.getD i default).attention =
          Attention.Far ↔
        ∀ b ∈ atomsW, b.molecule ≠ (atomsW.getD i default).molecule →
          Settings.default.separation_cutoff * Settings.default.separation_cutoff ≤
            (atomsW.getD i default).distance_squared b) ∧
      (((assign_attention_numbers Settings.default atomsW default).1.getD i default).attention =
          Attention.Far ∨
       ((assign_attention_numbers Settings.default atomsW default).1.getD i default).attention =
          Attention.Buried))) ∧
    (assign_attention_numbers Settings.default atomsW default).2.surfaces.1.n_blocked_atoms =
      atomsW.countP (fun a => decide (a.molecule = 0) &&
        decide (attentionFlag Settings.default atomsW a = Attention.Far)) ∧
    (assign_attention_numbers Settings.default atomsW default).2.surfaces.2.n_blocked_atoms =
      atomsW.countP (fun a => decide (a.molecule = 1) &&
        decide (attentionFlag Settings.default atomsW a = Attention.Far)) ∧
    (assign_attention_numbers Settings.default atomsW default).2.surfaces.1.n_buried_atoms =
      atomsW.countP (fun a => decide (a.molecule = 0) &&
        (! decide (attentionFlag Settings.default atomsW a = Attention.Far))) ∧
    (assign_attention_numbers Settings.default atomsW default).2.surfaces.2.n_buried_atoms =
      atomsW.countP (fun a => decide (a.molecule = 1) &&
        (! decide (attentionFlag Settings.default atomsW a = Attention.Far)))) :=
  ⟨by
    intro a ha
    rcases List.mem_cons.mp ha with rfl | ha
    · norm_num [atomW0, atomNoRadius]
    · rcases List.mem_cons.mp ha with rfl | ha
      · norm_num [atomW1, atomNoRadius]
      · exact absurd ha (List.not_mem_nil a),
   claim4_attention_classification Settings.default atomsW default (by
    intro a ha
    rcases List.mem_cons.mp ha with rfl | ha
    · norm_num [atomW0, atomNoRadius]
    · rcases List.mem_cons.mp ha with rfl | ha
      · norm_num [atomW1, atomNoRadius]
      · exact absurd ha (List.not_mem_nil a))⟩

/-- The per-neighbour scan of `compute_neighbors_all_parallel`
(`surface_generator.rs` lines 216–235): walk candidate indices `j`, skip
`j == i` and equal ordinals, raise `Coincident` on a same-molecule pair at
squared distance ≤ 1e-4, and push same-molecule candidates within the bridge
distance into `neighbor_indices` and opposite-molecule ones into
`buried_by_indices`. -/
def neighborScan (atoms : List Atom) (rp : ℝ) (i : ℕ) (a1 : Atom) :
    List ℕ → Except SurfaceCalculatorError (List ℕ × List ℕ)
  | [] => Except.ok ([], [])
  | j :: rest =>
    if j = i then neighborScan atoms rp i a1 rest
    else
      let a2 := atoms.getD j default
      if a1.natom = a2.natom then neighborScan atoms rp i a1 rest
      else if a1.molecule = a2.molecule then
        if a1.distance_squared a2 ≤ 1/10000 then
          Except.error (SurfaceCalculatorError.Coincident
            { natom1 := a1.natom, residue1 := a1.residue, atomName1 := a1.atomName,
              coor1 := a1.coor, natom2 := a2.natom, residue2 := a2.residue,
              atomName2 := a2.atomName, coor2 := a2.coor })
        else if a1.distance_squared a2 <
            (a1.radius + a2.radius + 2 * rp) * (a1.radius + a2.radius + 2 * rp) then
          match neighborScan atoms rp i a1 rest with
          | Except.error e => Except.error e
          | Except.ok out => Except.ok (j :: out.1, out.2)
        else neighborScan atoms rp i a1 rest
      else
        if a1.distance_squared a2 <
            (a1.radius + a2.radius + 2 * rp) * (a1.radius + a2.radius + 2 * rp) then
          match neighborScan atoms rp i a1 rest with
          | Except.error e => Except.error e
          | Except.ok out => Except.ok (out.1, j :: out.2)
        else neighborScan atoms rp i a1 rest

/-- The sort key relation of the neighbour sort (lines 237–241): ascending
squared distance from the owning atom's centre. -/
def neighborLe (atoms : List Atom) (center : Vec3) (j k : ℕ) : Prop :=
  Vec3.distance_squared (atoms.getD j default).coor center ≤
    Vec3.distance_squared (atoms.getD k default).coor center

instance neighborLe.decRel (atoms : List Atom) (center : Vec3) :
    DecidableRel (neighborLe atoms center) := fun _ _ =>
  inferInstanceAs (Decidable (_ ≤ _))

instance neighborLe.total (atoms : List Atom) (center : Vec3) :
    IsTotal ℕ (neighborLe atoms center) := ⟨fun _ _ => le_total _ _⟩

instance neighborLe.trans (atoms : List Atom) (center : Vec3) :
    IsTrans ℕ (neighborLe atoms center) := ⟨fun _ _ _ h1 h2 => le_trans h1 h2⟩

/-- The per-atom task body of `compute_neighbors_all_parallel`
(lines 211–243): scan all indices, sort the same-molecule neighbours by
ascending squared distance (the source's `sort_unstable_by` with the
three-way comparator on that key; a stable sort realises the same
specification) and report `accessible` when the list is empty. -/
def findNeighborsForAtomPar (atoms : List Atom) (rp : ℝ) (i : ℕ) :
    Except SurfaceCalculatorError (List ℕ × List ℕ × Bool) :=
  let a1 := atoms.getD i default
  match neighborScan atoms rp i a1 (List.range atoms.length) with
  | Except.error e => Except.error e
  | Except.ok out =>
    let sorted := (out.1).insertionSort (neighborLe atoms a1.coor)
    Except.ok (sorted, out.2, sorted.isEmpty)

/-- The `collect::<Result<Vec<_>>>` of the parallel neighbour phase: gather
every task's output, stopping at a failing task (the embedding resolves the
choice among simultaneously failing tasks to the lowest index). -/
def collectNeighbors (atoms : List Atom) (rp : ℝ) :
    List ℕ → Except SurfaceCalculatorError (List (List ℕ × List ℕ × Bool))
  | [] => Except.ok []
  | i :: rest =>
    match findNeighborsForAtomPar atoms rp i with
    | Except.error e => Except.error e
    | Except.ok o =>
      match collectNeighbors atoms rp rest with
      | Except.error e => Except.error e
      | Except.ok os => Except.ok (o :: os)

/-- The write-back loop of `compute_neighbors_all_parallel` (lines 246–251):
install each task's lists on its atom; `accessible` is only ever set, never
cleared. -/
def applyNeighborOuts (atoms : List Atom) (outs : List (List ℕ × List ℕ × Bool)) :
    List Atom :=
  List.zipWith (fun a (o : List ℕ × List ℕ × Bool) =>
    { a with neighbor_indices := o.1, buried_by_indices := o.2.1,
             accessible := a.accessible || o.2.2 }) atoms outs

/-- Embeds `compute_neighbors_all_parallel` from `surface_generator.rs`
lines 205–253 (its `_bb2` bound is computed but unused in the source). -/
def compute_neighbors_all_parallel (atoms : List Atom) (rp : ℝ) :
    Except SurfaceCalculatorError (List Atom) :=
  match collectNeighbors atoms rp (List.range atoms.length) with
  | Except.error e => Except.error e
  | Except.ok outs => Except.ok (applyNeighborOuts atoms outs)

/-- The guard under which the scan records `j` as a same-molecule neighbour
of the atom at `i`. -/
def codeNeighborCond (atoms : List Atom) (rp : ℝ) (i j : ℕ) (a1 : Atom) : Prop :=
  j ≠ i ∧ a1.natom ≠ (atoms.getD j default).natom ∧
  a1.molecule = (atoms.getD j default).molecule ∧
  a1.distance_squared (atoms.getD j default) <
    (a1.radius + (atoms.getD j default).radius + 2 * rp) *
    (a1.radius + (atoms.getD j default).radius + 2 * rp)

/-- The guard under which the scan records `j` as an opposite-molecule
burier of the atom at `i`. -/
def codeBurierCond (atoms : List Atom) (rp : ℝ) (i j : ℕ) (a1 : Atom) : Prop :=
  j ≠ i ∧ a1.natom ≠ (atoms.getD j default).natom ∧
  a1.molecule ≠ (atoms.getD j default).molecule ∧
  a1.distance_squared (atoms.getD j default) <
    (a1.radius + (atoms.getD j default).radius + 2 * rp) *
    (a1.radius + (atoms.getD j default).radius + 2 * rp)

/-- Membership in the two lists a successful scan returns is exactly the
corresponding guard. -/
theorem neighborScan_mem (atoms : List Atom) (rp : ℝ) (i : ℕ) (a1 : Atom)
    (l : List ℕ) (ns bs : List ℕ)
    (h : neighborScan atoms rp i a1 l = Except.ok (ns, bs)) :
    (∀ j, j ∈ ns ↔ (j ∈ l ∧ codeNeighborCond atoms rp i j a1)) ∧
    (∀ j, j ∈ bs ↔ (j ∈ l ∧ codeBurierCond atoms rp i j a1)) := by
  induction l generalizing ns bs with
  | nil =>
    rw [neighborScan] at h
    obtain ⟨rfl, rfl⟩ : ([] : List ℕ) = ns ∧ ([] : List ℕ) = bs := by
      have := Except.ok.inj h
      exact ⟨congrArg Prod.fst this, congrArg Prod.snd this⟩
    simp
  | cons j rest ih =>
    rw [neighborScan] at h
    dsimp only at h
    by_cases hji : j = i
    · rw [if_pos hji] at h
      obtain ⟨ih1, ih2⟩ := ih _ _ h
      constructor
      · intro j'
        rw [ih1 j']
        constructor
        · rintro ⟨hm, hc⟩
          exact ⟨List.mem_cons_of_mem _ hm, hc⟩
        · rintro ⟨hm, hc⟩
          rcases List.mem_cons.mp hm with rfl | hm
          · exact absurd hji hc.1
          · exact ⟨hm, hc⟩
      · intro j'
        rw [ih2 j']
        constructor
        · rintro ⟨hm, hc⟩
          exact ⟨List.mem_cons_of_mem _ hm, hc⟩
        · rintro ⟨hm, hc⟩
          rcases List.mem_cons.mp hm with rfl | hm
          · exact absurd hji hc.1
          · exact ⟨hm, hc⟩
    · rw [if_neg hji] at h
      by_cases hnat : a1.natom = (atoms.getD j default).natom
      · rw [if_pos hnat] at h
        obtain ⟨ih1, ih2⟩ := ih _ _ h
        constructor
        · intro j'
          rw [ih1 j']
          constructor
          · rintro ⟨hm, hc⟩
            exact ⟨List.mem_cons_of_mem _ hm, hc⟩
          · rintro ⟨hm, hc⟩
            rcases List.mem_cons.mp hm with rfl | hm
            · exact absurd hnat hc.2.1
            · exact ⟨hm, hc⟩
        · intro j'
          rw [ih2 j']
          constructor
          · rintro ⟨hm, hc⟩
            exact ⟨List.mem_cons_of_mem _ hm, hc⟩
          · rintro ⟨hm, hc⟩
            rcases List.mem_cons.mp hm with rfl | hm
            · exact absurd hnat hc.2.1
            · exact ⟨hm, hc⟩
      · rw [if_neg hnat] at h
        by_cases hmol : a1.molecule = (atoms.getD j default).molecule
        · rw [if_pos hmol] at h
          by_cases hco : a1.distance_squared (atoms.getD j default) ≤ 1/10000
          · rw [if_pos hco] at h
            exact absurd h (by simp)
          · rw [if_neg hco] at h
            by_cases hbr : a1.distance_squared (atoms.getD j default) <
                (a1.radius + (atoms.getD j default).radius + 2 * rp) *
                (a1.radius + (atoms.getD j default).radius + 2 * rp)
            · rw [if_pos hbr] at h
              cases hrest : neighborScan atoms rp i a1 rest with
              | error e =>
                rw [hrest] at h
                exact absurd h (by simp)
              | ok out =>
                rw [hrest] at h
                dsimp only at h
                obtain ⟨h1, h2⟩ : j :: out.1 = ns ∧ out.2 = bs := by
                  have := Except.ok.inj h
                  exact ⟨congrArg Prod.fst this, congrArg Prod.snd this⟩
                obtain ⟨ih1, ih2⟩ := ih _ _ hrest
                subst h1
                subst h2
                constructor
                · intro j'
                  rw [List.mem_cons, ih1 j']
                  constructor
                  · rintro (rfl | ⟨hm, hc⟩)
                    · exact ⟨List.mem_cons_self _ _, hji, hnat, hmol, hbr⟩
                    · exact ⟨List.mem_cons_of_mem _ hm, hc⟩
                  · rintro ⟨hm, hc⟩
                    rcases List.mem_cons.mp hm with rfl | hm
                    · exact Or.inl rfl
                    · exact Or.inr ⟨hm, hc⟩
                · intro j'
                  rw [ih2 j']
                  constructor
                  · rintro ⟨hm, hc⟩
                    exact ⟨List.mem_cons_of_mem _ hm, hc⟩
                  · rintro ⟨hm, hc⟩
                    rcases List.mem_cons.mp hm with rfl | hm
                    · exact absurd hmol hc.2.2.1
                    · exact ⟨hm, hc⟩
            · rw [if_neg hbr] at h
              obtain ⟨ih1, ih2⟩ := ih _ _ h
              constructor
              · intro j'
                rw [ih1 j']
                constructor
                · rintro ⟨hm, hc⟩
                  exact ⟨List.mem_cons_of_mem _ hm, hc⟩
                · rintro ⟨hm, hc⟩
                  rcases List.mem_cons.mp hm with rfl | hm
                  · exact absurd hc.2.2.2 hbr
                  · exact ⟨hm, hc⟩
              · intro j'
                rw [ih2 j']
                constructor
                · rintro ⟨hm, hc⟩
                  exact ⟨List.mem_cons_of_mem _ hm, hc⟩
                · rintro ⟨hm, hc⟩
                  rcases List.mem_cons.mp hm with rfl | hm
                  · exact absurd hmol hc.2.2.1
                  · exact ⟨hm, hc⟩
        · rw [if_neg hmol] at h
          by_cases hbr : a1.distance_squared (atoms.getD j default) <
              (a1.radius + (atoms.getD j default).radius + 2 * rp) *
              (a1.radius + (atoms.getD j default).radius + 2 * rp)
          · rw [if_pos hbr] at h
            cases hrest : neighborScan atoms rp i a1 rest with
            | error e =>
              rw [hrest] at h
              exact absurd h (by simp)
            | ok out =>
              rw [hrest] at h
              dsimp only at h
              obtain ⟨h1, h2⟩ : out.1 = ns ∧ j :: out.2 = bs := by
                have := Except.ok.inj h
                exact ⟨congrArg Prod.fst this, congrArg Prod.snd this⟩
              obtain ⟨ih1, ih2⟩ := ih _ _ hrest
              subst h1
              subst h2
              constructor
              · intro j'
                rw [ih1 j']
                constructor
                · rintro ⟨hm, hc⟩
                  exact ⟨List.mem_cons_of_mem _ hm, hc⟩
                · rintro ⟨hm, hc⟩
                  rcases List.mem_cons.mp hm with rfl | hm
                  · exact absurd hc.2.2.1 (by simpa using hmol)
                  · exact ⟨hm, hc⟩
              · intro j'
                rw [List.mem_cons, ih2 j']
                constructor
                · rintro (rfl | ⟨hm, hc⟩)
                  · exact ⟨List.mem_cons_self _ _, hji, hnat, hmol, hbr⟩
                  · exact ⟨List.mem_cons_of_mem _ hm, hc⟩
                · rintro ⟨hm, hc⟩
                  rcases List.mem_cons.mp hm with rfl | hm
                  · exact Or.inl rfl
                  · exact Or.inr ⟨hm, hc⟩
          · rw [if_neg hbr] at h
            obtain ⟨ih1, ih2⟩ := ih _ _ h
            constructor
            · intro j'
              rw [ih1 j']
              constructor
              · rintro ⟨hm, hc⟩
                exact ⟨List.mem_cons_of_mem _ hm, hc⟩
              · rintro ⟨hm, hc⟩
                rcases List.mem_cons.mp hm with rfl | hm
                · exact absurd hc.2.2.1 (by simpa using hmol)
                · exact ⟨hm, hc⟩
            · intro j'
              rw [ih2 j']
              constructor
              · rintro ⟨hm, hc⟩
                exact ⟨List.mem_cons_of_mem _ hm, hc⟩
              · rintro ⟨hm, hc⟩
                rcases List.mem_cons.mp hm with rfl | hm
                · exact absurd hc.2.2.2 hbr
                · exact ⟨hm, hc⟩

/-- What a successful per-atom task returns: the guard-characterised
membership, sortedness by ascending squared distance, and the accessibility
flag. -/
theorem findNeighborsForAtomPar_spec (atoms : List Atom) (rp : ℝ) (i : ℕ)
    (ns bs : List ℕ) (acc : Bool)
    (h : findNeighborsForAtomPar atoms rp i = Except.ok (ns, bs, acc)) :
    (∀ j, j ∈ ns ↔ (j < atoms.length ∧ codeNeighborCond atoms rp i j (atoms.getD i default))) ∧
    ns.Pairwise (neighborLe atoms (atoms.getD i default).coor) ∧
    (∀ j, j ∈ bs ↔ (j < atoms.length ∧ codeBurierCond atoms rp i j (atoms.getD i default))) := by
  unfold findNeighborsForAtomPar at h
  dsimp only at h
  cases hscan : neighborScan atoms rp i (atoms.getD i default) (List.range atoms.length) with
  | error e =>
    rw [hscan] at h
    exact absurd h (by simp)
  | ok out =>
    rw [hscan] at h
    dsimp only at h
    have hinj := Except.ok.inj h
    have hns : (out.1).insertionSort (neighborLe atoms (atoms.getD i default).coor) = ns :=
      congrArg Prod.fst hinj
    have hbs : out.2 = bs := congrArg (fun t => t.2.1) hinj
    obtain ⟨hmem1, hmem2⟩ :=
      neighborScan_mem atoms rp i (atoms.getD i default) (List.range atoms.length)
        out.1 out.2 (by rw [hscan])
    refine ⟨?_, ?_, ?_⟩
    · intro j
      rw [← hns,
        (List.perm_insertionSort (neighborLe atoms (atoms.getD i default).coor) out.1).mem_iff,
        hmem1 j, List.mem_range]
    · rw [← hns]
      exact List.sorted_insertionSort (neighborLe atoms (atoms.getD i default).coor) out.1
    · intro j
      rw [← hbs, hmem2 j, List.mem_range]

/-- A successful collect returns one output per task, each being that task's
result. -/
theorem collectNeighbors_spec (atoms : List Atom) (rp : ℝ) (l : List ℕ)
    (outs : List (List ℕ × List ℕ × Bool))
    (h : collectNeighbors atoms rp l = Except.ok outs) :
    outs.length = l.length ∧ ∀ k, k < l.length →
      findNeighborsForAtomPar atoms rp (l.getD k 0) = Except.ok (outs.getD k default) := by
  induction l generalizing outs with
  | nil =>
    rw [collectNeighbors] at h
    obtain rfl : ([] : List (List ℕ × List ℕ × Bool)) = outs := Except.ok.inj h
    exact ⟨rfl, fun k hk => absurd hk (by simp)⟩
  | cons i rest ih =>
    rw [collectNeighbors] at h
    cases hfi : findNeighborsForAtomPar atoms rp i with
    | error e =>
      rw [hfi] at h
      exact absurd h (by simp)
    | ok o =>
      rw [hfi] at h
      dsimp only at h
      cases hrest : collectNeighbors atoms rp rest with
      | error e =>
        rw [hrest] at h
        exact absurd h (by simp)
      | ok os =>
        rw [hrest] at h
        dsimp only at h
        obtain rfl : o :: os = outs := Except.ok.inj h
        obtain ⟨ihlen, ihall⟩ := ih os hrest
        refine ⟨by simp [ihlen], ?_⟩
        intro k hk
        cases k with
        | zero => simpa using hfi
        | succ k' =>
          have hk' : k' < rest.length := by simpa using hk
          simpa using ihall k' hk'

/-- C3: after the parallel neighbour computation succeeds, for every atom `i`
its `neighbor_indices` holds exactly the indices `j ≠ i` of same-molecule
atoms with `dist²(i,j) < (r_i + r_j + 2·rp)²` sorted by ascending squared
distance from atom `i`, and its `buried_by_indices` exactly the
opposite-molecule indices within the same bound.  The hypothesis `hnat` is
the store invariant `natom = index + 1` that `add_atom` establishes. -/
theorem claim3_neighbor_graph (atoms : List Atom) (rp : ℝ) (atoms' : List Atom)
    (hnat : ∀ k, k < atoms.length → (atoms.getD k default).natom = k + 1)
    (hok : compute_neighbors_all_parallel atoms rp = Except.ok atoms')
    (i : ℕ) (hi : i < atoms.length) :
    (∀ j, j ∈ (atoms'.getD i default).neighbor_indices ↔
      (j < atoms.length ∧ j ≠ i ∧
        (atoms.getD j default).molecule = (atoms.getD i default).molecule ∧
        (atoms.getD i default).distance_squared (atoms.getD j default) <
          ((atoms.getD i default).radius + (atoms.getD j default).radius + 2 * rp) *
          ((atoms.getD i default).radius + (atoms.getD j default).radius + 2 * rp))) ∧
    ((atoms'.getD i default).neighbor_indices).Pairwise
      (neighborLe atoms (atoms.getD i default).coor) ∧
    (∀ j, j ∈ (atoms'.getD i default).buried_by_indices ↔
      (j < atoms.length ∧
        (atoms.getD j default).molecule ≠ (atoms.getD i default).molecule ∧
        (atoms.getD i default).distance_squared (atoms.getD j default) <
          ((atoms.getD i default).radius + (atoms.getD j default).radius + 2 * rp) *
          ((atoms.getD i default).radius + (atoms.getD j default).radius + 2 * rp))) := by
  unfold compute_neighbors_all_parallel at hok
  cases hcol : collectNeighbors atoms rp (List.range atoms.length) with
  | error e =>
    rw [hcol] at hok
    exact absurd hok (by simp)
  | ok outs =>
    rw [hcol] at hok
    dsimp only at hok
    obtain rfl : applyNeighborOuts atoms outs = atoms' := Except.ok.inj hok
    obtain ⟨hlen, hall⟩ := collectNeighbors_spec atoms rp (List.range atoms.length) outs hcol
    have hleno : outs.length = atoms.length := by simpa using hlen
    have hiout : i < outs.length := by omega
    have hgr : (List.range atoms.length).getD i 0 = i := by
      rw [List.getD_eq_getElem _ _ (by simpa using hi), List.getElem_range]
    have hfi : findNeighborsForAtomPar atoms rp i = Except.ok (outs.getD i default) := by
      have := hall i (by simpa using hi)
      rwa [hgr] at this
    have hget : (applyNeighborOuts atoms outs).getD i default =
        { (atoms.getD i default) with
          neighbor_indices := (outs.getD i default).1
          buried_by_indices := (outs.getD i default).2.1
          accessible := (atoms.getD i default).accessible || (outs.getD i default).2.2 } := by
      unfold applyNeighborOuts
      rw [List.getD_eq_getElem _ _ (by rw [List.length_zipWith]; omega),
        List.getElem_zipWith, List.getD_eq_getElem _ _ hi,
        List.getD_eq_getElem _ _ hiout]
    obtain ⟨hm1, hsort, hm2⟩ := findNeighborsForAtomPar_spec atoms rp i
      (outs.getD i default).1 (outs.getD i default).2.1 (outs.getD i default).2.2 hfi
    rw [hget]
    refine ⟨?_, hsort, ?_⟩
    · intro j
      rw [hm1 j]
      unfold codeNeighborCond
      constructor
      · rintro ⟨hj, hne, _, hmol, hd⟩
        exact ⟨hj, hne, hmol.symm, hd⟩
      · rintro ⟨hj, hne, hmol, hd⟩
        refine ⟨hj, hne, ?_, hmol.symm, hd⟩
        rw [hnat i hi, hnat j hj]
        omega
    · intro j
      rw [hm2 j]
      unfold codeBurierCond
      constructor
      · rintro ⟨hj, _, _, hmol, hd⟩
        exact ⟨hj, fun hc => hmol hc.symm, hd⟩
      · rintro ⟨hj, hmol, hd⟩
        have hne : j ≠ i := by
          intro hc
          subst hc
          exact hmol rfl
        refine ⟨hj, hne, ?_, fun hc => hmol hc.symm, hd⟩
        rw [hnat i hi, hnat j hj]
        omega

/-- Component form of vector subtraction, for concrete evaluation. -/
theorem Vec3.sub_def (a b : Vec3) : a - b = ⟨a.x - b.x, a.y - b.y, a.z - b.z⟩ := rfl

/-- Component form of vector addition, for concrete evaluation. -/
theorem Vec3.add_def (a b : Vec3) : a + b = ⟨a.x + b.x, a.y + b.y, a.z + b.z⟩ := rfl

/-- Component form of vector-scalar multiplication, for concrete
evaluation. -/
theorem Vec3.smul_def (a : Vec3) (c : ℝ) : a * c = ⟨a.x * c, a.y * c, a.z * c⟩ := rfl

/-- Component form of vector-scalar division, for concrete evaluation. -/
theorem Vec3.sdiv_def (a : Vec3) (c : ℝ) : a / c = ⟨a.x / c, a.y / c, a.z / c⟩ := rfl

/-- A two-atom, one-molecule neighbour-witness system 2 Å apart with unit
radii. -/
def atomN0 : Atom := { atomNoRadius with natom := 1, molecule := 0, radius := 1 }

/-- Second neighbour-witness atom at (2,0,0). -/
def atomN1 : Atom :=
  { atomNoRadius with natom := 2, molecule := 0, radius := 1, coor := ⟨2, 0, 0⟩ }

/-- The neighbour-witness store. -/
def atomsN : List Atom := [atomN0, atomN1]

/-- The squared distance of the two witness atoms. -/
theorem atomsN_dist : Atom.distance_squared atomN0 atomN1 = 4 := by
  norm_num [Atom.distance_squared, Vec3.distance_squared, Vec3.magnitude_squared,
    Vec3.sub_def, Vec3.zero, atomN0, atomN1, atomNoRadius]

/-- Scan evaluation for the first witness atom. -/
theorem neighborScan_demo0 :
    neighborScan atomsN 1 0 (atomsN.getD 0 default) (List.range atomsN.length) =
      Except.ok ([1], []) := by
  show neighborScan atomsN 1 0 (atomsN.getD 0 default) [0, 1] = _
  rw [neighborScan, if_pos rfl, neighborScan]
  dsimp only
  rw [if_neg (by norm_num)]
  rw [if_neg (by norm_num [atomsN, atomN0, atomN1, atomNoRadius])]
  rw [if_pos (by norm_num [atomsN, atomN0, atomN1, atomNoRadius])]
  rw [if_neg (by
    show ¬ (atomsN.getD 0 default).distance_squared (atomsN.getD 1 default) ≤ 1/10000
    have : (atomsN.getD 0 default).distance_squared (atomsN.getD 1 default) = 4 := by
      show Atom.distance_squared atomN0 atomN1 = 4
      exact atomsN_dist
    rw [this]
    norm_num)]
  rw [if_pos (by
    show (atomsN.getD 0 default).distance_squared (atomsN.getD 1 default) < _
    have : (atomsN.getD 0 default).distance_squared (atomsN.getD 1 default) = 4 := by
      show Atom.distance_squared atomN0 atomN1 = 4
      exact atomsN_dist
    rw [this]
    norm_num [atomsN, atomN0, atomN1, atomNoRadius])]
  rw [neighborScan]

/-- Scan evaluation for the second witness atom. -/
theorem neighborScan_demo1 :
    neighborScan atomsN 1 1 (atomsN.getD 1 default) (List.range atomsN.length) =
      Except.ok ([0], []) := by
  show neighborScan atomsN 1 1 (atomsN.getD 1 default) [0, 1] = _
  rw [neighborScan]
  dsimp only
  rw [if_neg (by norm_num)]
  rw [if_neg (by norm_num [atomsN, atomN0, atomN1, atomNoRadius])]
  rw [if_pos (by norm_num [atomsN, atomN0, atomN1, atomNoRadius])]
  rw [if_neg (by
    show ¬ (atomsN.getD 1 default).distance_squared (atomsN.getD 0 default) ≤ 1/10000
    have : (atomsN.getD 1 default).distance_squared (atomsN.getD 0 default) = 4 := by
      norm_num [Atom.distance_squared, Vec3.distance_squared, Vec3.magnitude_squared,
        Vec3.sub_def, Vec3.zero, atomsN, atomN0, atomN1, atomNoRadius]
    rw [this]
    norm_num)]
  rw [if_pos (by
    show (atomsN.getD 1 default).distance_squared (atomsN.getD 0 default) < _
    have : (atomsN.getD 1 default).distance_squared (atomsN.getD 0 default) = 4 := by
      norm_num [Atom.distance_squared, Vec3.distance_squared, Vec3.magnitude_squared,
        Vec3.sub_def, Vec3.zero, atomsN, atomN0, atomN1, atomNoRadius]
    rw [this]
    norm_num [atomsN, atomN0, atomN1, atomNoRadius])]
  rw [neighborScan, if_pos rfl, neighborScan]

/-- The expected post-state of the parallel neighbour phase on the witness
store. -/
def atomsNAfter : List Atom :=
  [{ atomN0 with
      neighbor_indices := [1]
      buried_by_indices := []
      accessible := false },
   { atomN1 with
      neighbor_indices := [0]
      buried_by_indices := []
      accessible := false }]

/-- The full parallel neighbour phase on the witness store. -/
theorem computeNeighbors_demo_eval :
    compute_neighbors_all_parallel atomsN 1 = Except.ok atomsNAfter := by
  have hf0 : findNeighborsForAtomPar atomsN 1 0 = Except.ok ([1], [], false) := by
    unfold findNeighborsForAtomPar
    dsimp only
    rw [neighborScan_demo0]
    rfl
  have hf1 : findNeighborsForAtomPar atomsN 1 1 = Except.ok ([0], [], false) := by
    unfold findNeighborsForAtomPar
    dsimp only
    rw [neighborScan_demo1]
    rfl
  have hc : collectNeighbors atomsN 1 (List.range atomsN.length) =
      Except.ok [([1], [], false), ([0], [], false)] := by
    show collectNeighbors atomsN 1 [0, 1] = _
    rw [collectNeighbors, hf0]
    dsimp only
    rw [collectNeighbors, hf1]
    dsimp only
    rw [collectNeighbors]
  unfold compute_neighbors_all_parallel
  rw [hc]
  dsimp only
  rfl

/-- The store invariant of the witness system. -/
theorem atomsN_natom : ∀ k, k < atomsN.length → (atomsN.getD k default).natom = k + 1 := by
  intro k hk
  have hk2 : k < 2 := by simpa [atomsN] using hk
  interval_cases k <;> norm_num [atomsN, atomN0, atomN1, atomNoRadius]

/-- C3 (witness): the neighbour-graph theorem applied to the concrete
two-atom store at atom 0. -/
theorem claim3_neighbor_graph_witness :
    (∀ k, k < atomsN.length → (atomsN.getD k default).natom = k + 1) ∧
    compute_neighbors_all_parallel atomsN 1 = Except.ok atomsNAfter ∧
    ((∀ j, j ∈ (atomsNAfter.getD 0 default).neighbor_indices ↔
      (j < atomsN.length ∧ j ≠ 0 ∧
        (atomsN.getD j default).molecule = (atomsN.getD 0 default).molecule ∧
        (atomsN.getD 0 default).distance_squared (atomsN.getD j default) <
          ((atomsN.getD 0 default).radius + (atomsN.getD j default).radius + 2 * 1) *
          ((atomsN.getD 0 default).radius + (atomsN.getD j default).radius + 2 * 1))) ∧
    ((atomsNAfter.getD 0 default).neighbor_indices).Pairwise
      (neighborLe atomsN (atomsN.getD 0 default).coor) ∧
    (∀ j, j ∈ (atomsNAfter.getD 0 default).buried_by_indices ↔
      (j < atomsN.length ∧
        (atomsN.getD j default).molecule ≠ (atomsN.getD 0 default).molecule ∧
        (atomsN.getD 0 default).distance_squared (atomsN.getD j default) <
          ((atomsN.getD 0 default).radius + (atomsN.getD j default).radius + 2 * 1) *
          ((atomsN.getD 0 default).radius + (atomsN.getD j default).radius + 2 * 1)))) :=
  ⟨atomsN_natom, computeNeighbors_demo_eval,
   claim3_neighbor_graph atomsN 1 atomsNAfter atomsN_natom computeNeighbors_demo_eval 0
     (by norm_num [atomsN])⟩

/-- The scan loop of `find_neighbors_for_atom_by_index`
(`surface_generator.rs` lines 354–377): like the parallel scan, but also
counting `nbb`, the opposite-molecule atoms within the `bb2` bound. -/
def serialScan (atoms : List Atom) (rp bb2 : ℝ) (i : ℕ) (a1 : Atom) :
    List ℕ → Except SurfaceCalculatorError (List ℕ × List ℕ × ℕ)
  | [] => Except.ok ([], [], 0)
  | j :: rest =>
    if j = i then serialScan atoms rp bb2 i a1 rest
    else
      let a2 := atoms.getD j default
      if a1.natom = a2.natom then serialScan atoms rp bb2 i a1 rest
      else if a1.molecule = a2.molecule then
        if a1.distance_squared a2 ≤ 1/10000 then
          Except.error (SurfaceCalculatorError.Coincident
            { natom1 := a1.natom, residue1 := a1.residue, atomName1 := a1.atomName,
              coor1 := a1.coor, natom2 := a2.natom, residue2 := a2.residue,
              atomName2 := a2.atomName, coor2 := a2.coor })
        else if a1.distance_squared a2 <
            (a1.radius + a2.radius + 2 * rp) * (a1.radius + a2.radius + 2 * rp) then
          match serialScan atoms rp bb2 i a1 rest with
          | Except.error e => Except.error e
          | Except.ok out => Except.ok (j :: out.1, out.2.1, out.2.2)
        else serialScan atoms rp bb2 i a1 rest
      else
        match serialScan atoms rp bb2 i a1 rest with
        | Except.error e => Except.error e
        | Except.ok out =>
          let nbb := if a1.distance_squared a2 < bb2 then out.2.2 + 1 else out.2.2
          if a1.distance_squared a2 <
              (a1.radius + a2.radius + 2 * rp) * (a1.radius + a2.radius + 2 * rp) then
            Except.ok (out.1, j :: out.2.1, nbb)
          else Except.ok (out.1, out.2.1, nbb)

/-- Embeds `find_neighbors_for_atom_by_index` from `surface_generator.rs`
lines 346–387, returning the atom's new `neighbor_indices`,
`buried_by_indices` and `accessible` values plus the `bool` the source
returns.  On the vestigial `Consider`-with-no-burier early return the lists
are installed unsorted, exactly as in the source. -/
def find_neighbors_for_atom_by_index (atoms : List Atom) (rp radmax : ℝ) (i : ℕ) :
    Except SurfaceCalculatorError (List ℕ × List ℕ × Bool × Bool) :=
  let bb2 := (4 * radmax + 4 * rp) ^ 2
  let a1 := atoms.getD i default
  match serialScan atoms rp bb2 i a1 (List.range atoms.length) with
  | Except.error e => Except.error e
  | Except.ok out =>
    if a1.attention = Attention.Consider ∧ out.2.2 = 0 then
      Except.ok (out.1, out.2.1, a1.accessible, false)
    else if out.1.isEmpty then Except.ok (out.1, out.2.1, true, false)
    else Except.ok ((out.1).insertionSort (neighborLe atoms a1.coor), out.2.1,
      a1.accessible, true)

/-- The neighbour-graph portion of the serial driver loop
(`calc_dots_for_all_atoms`, lines 187–195, with `enable_parallel = false`):
atoms classified `Far` are skipped outright — in particular they are never
scanned for coincidence — and each processed atom receives its computed
lists.  The probe and contact-emission steps of the loop do not touch
neighbour lists and are outside this pass. -/
def serialPassGo (rp radmax : ℝ) : List ℕ → List Atom →
    Except SurfaceCalculatorError (List Atom)
  | [], atoms => Except.ok atoms
  | i :: rest, atoms =>
    if (atoms.getD i default).attention = Attention.Far then
      serialPassGo rp radmax rest atoms
    else
      match find_neighbors_for_atom_by_index atoms rp radmax i with
      | Except.error e => Except.error e
      | Except.ok out =>
        serialPassGo rp radmax rest
          (atoms.set i { (atoms.getD i default) with
            neighbor_indices := out.1
            buried_by_indices := out.2.1
            accessible := out.2.2.1 })

/-- The serial neighbour pass over the whole store. -/
def serialLoopNeighborPass (atoms : List Atom) (rp radmax : ℝ) :
    Except SurfaceCalculatorError (List Atom) :=
  serialPassGo rp radmax (List.range atoms.length) atoms

/-- Molecule-0 demo atom at the origin. -/
def atomC0 : Atom :=
  { atomNoRadius with
      natom := 1
      molecule := 0
      radius := 17/10
      residue := "GLY"
      atomName := "CA" }

/-- Molecule-0 demo atom 0.005 Å away from `atomC0` — coincident by the
source's `dist² ≤ 1e-4` test. -/
def atomC1 : Atom :=
  { atomNoRadius with
      natom := 2
      molecule := 0
      radius := 17/10
      residue := "GLY"
      atomName := "CB"
      coor := ⟨0, 0, 1/200⟩ }

/-- Molecule-1 demo atom 100 Å away: both molecules are entirely beyond the
8 Å separation cutoff, so every atom classifies as `Far`. -/
def atomC2 : Atom :=
  { atomNoRadius with
      natom := 3
      molecule := 1
      radius := 17/10
      residue := "ALA"
      atomName := "CA"
      coor := ⟨100, 0, 0⟩ }

/-- The raw demo store. -/
def atomsC : List Atom := [atomC0, atomC1, atomC2]

/-- The demo store after attention classification: every atom `Far`. -/
def atomsCFar : List Atom :=
  [{ atomC0 with attention := Attention.Far },
   { atomC1 with attention := Attention.Far },
   { atomC2 with attention := Attention.Far }]

/-- The `Coincident` payload the parallel phase reports on the demo store. -/
def coincInfoC : CoincidentInfo :=
  { natom1 := 1, residue1 := "GLY", atomName1 := "CA", coor1 := ⟨0, 0, 0⟩,
    natom2 := 2, residue2 := "GLY", atomName2 := "CB", coor2 := ⟨0, 0, 1/200⟩ }

/-- Squared distance of the two molecule-0 demo atoms: 0.000025 ≤ 1e-4. -/
theorem atomsC_coincident_dist : Atom.distance_squared atomC0 atomC1 = 1/40000 := by
  norm_num [Atom.distance_squared, Vec3.distance_squared, Vec3.magnitude_squared,
    Vec3.sub_def, Vec3.zero, atomC0, atomC1, atomNoRadius]

/-- Demo squared distance from atom 0 to the opposite molecule. -/
theorem atomsC_d02 : Atom.distance_squared atomC0 atomC2 = 10000 := by
  norm_num [Atom.distance_squared, Vec3.distance_squared, Vec3.magnitude_squared,
    Vec3.sub_def, Vec3.zero, atomC0, atomC2, atomNoRadius]

/-- Demo squared distance from atom 1 to the opposite molecule. -/
theorem atomsC_d12 : Atom.distance_squared atomC1 atomC2 = 10000 + 1/40000 := by
  norm_num [Atom.distance_squared, Vec3.distance_squared, Vec3.magnitude_squared,
    Vec3.sub_def, Vec3.zero, atomC1, atomC2, atomNoRadius]

/-- Demo squared distances measured from atom 2. -/
theorem atomsC_d20 : Atom.distance_squared atomC2 atomC0 = 10000 := by
  norm_num [Atom.distance_squared, Vec3.distance_squared, Vec3.magnitude_squared,
    Vec3.sub_def, Vec3.zero, atomC0, atomC2, atomNoRadius]

/-- Demo squared distance from atom 2 to atom 1. -/
theorem atomsC_d21 : Atom.distance_squared atomC2 atomC1 = 10000 + 1/40000 := by
  norm_num [Atom.distance_squared, Vec3.distance_squared, Vec3.magnitude_squared,
    Vec3.sub_def, Vec3.zero, atomC1, atomC2, atomNoRadius]

/-- Attention of demo atom 0: `Far` (10000 ≥ 64). -/
theorem attentionFlag_C0 : attentionFlag Settings.default atomsC atomC0 = Attention.Far := by
  have h1 : distMinStep atomC0 none atomC0 = none := by
    unfold distMinStep
    rw [if_pos rfl]
  have h2 : distMinStep atomC0 none atomC1 = none := by
    unfold distMinStep
    rw [if_pos (show atomC1.molecule = atomC0.molecule from rfl)]
  have h3 : distMinStep atomC0 none atomC2 = some (Atom.distance_squared atomC0 atomC2) := by
    unfold distMinStep
    rw [if_neg (by norm_num [atomC0, atomC2, atomNoRadius])]
  have hfold : distMin2 atomsC atomC0 = some (Atom.distance_squared atomC0 atomC2) := by
    unfold distMin2
    show List.foldl (distMinStep atomC0) none [atomC0, atomC1, atomC2] = _
    rw [List.foldl_cons, h1, List.foldl_cons, h2, List.foldl_cons, h3, List.foldl_nil]
  unfold attentionFlag
  rw [hfold]
  dsimp only
  rw [atomsC_d02, if_pos (by norm_num [Settings.default])]

/-- Attention of demo atom 1: `Far`. -/
theorem attentionFlag_C1 : attentionFlag Settings.default atomsC atomC1 = Attention.Far := by
  have h1 : distMinStep atomC1 none atomC0 = none := by
    unfold distMinStep
    rw [if_pos (show atomC0.molecule = atomC1.molecule from rfl)]
  have h2 : distMinStep atomC1 none atomC1 = none := by
    unfold distMinStep
    rw [if_pos rfl]
  have h3 : distMinStep atomC1 none atomC2 = some (Atom.distance_squared atomC1 atomC2) := by
    unfold distMinStep
    rw [if_neg (by norm_num [atomC1, atomC2, atomNoRadius])]
  have hfold : distMin2 atomsC atomC1 = some (Atom.distance_squared atomC1 atomC2) := by
    unfold distMin2
    show List.foldl (distMinStep atomC1) none [atomC0, atomC1, atomC2] = _
    rw [List.foldl_cons, h1, List.foldl_cons, h2, List.foldl_cons, h3, List.foldl_nil]
  unfold attentionFlag
  rw [hfold]
  dsimp only
  rw [atomsC_d12, if_pos (by norm_num [Settings.default])]

/-- Attention of demo atom 2: `Far`. -/
theorem attentionFlag_C2 : attentionFlag Settings.default atomsC atomC2 = Attention.Far := by
  have h1 : distMinStep atomC2 none atomC0 = some (Atom.distance_squared atomC2 atomC0) := by
    unfold distMinStep
    rw [if_neg (by norm_num [atomC0, atomC2, atomNoRadius])]
  have h2 : distMinStep atomC2 (some (Atom.distance_squared atomC2 atomC0)) atomC1 =
      some (Atom.distance_squared atomC2 atomC0) := by
    unfold distMinStep
    rw [if_neg (by norm_num [atomC1, atomC2, atomNoRadius])]
    dsimp only
    rw [atomsC_d20, atomsC_d21, if_neg (by norm_num)]
  have h3 : distMinStep atomC2 (some (Atom.distance_squared atomC2 atomC0)) atomC2 =
      some (Atom.distance_squared atomC2 atomC0) := by
    unfold distMinStep
    rw [if_pos rfl]
  have hfold : distMin2 atomsC atomC2 = some (Atom.distance_squared atomC2 atomC0) := by
    unfold distMin2
    show List.foldl (distMinStep atomC2) none [atomC0, atomC1, atomC2] = _
    rw [List.foldl_cons, h1, List.foldl_cons, h2, List.foldl_cons, h3, List.foldl_nil]
  unfold attentionFlag
  rw [hfold]
  dsimp only
  rw [atomsC_d20, if_pos (by norm_num [Settings.default])]

/-- Attention classification on the raw demo store marks every atom `Far`. -/
theorem assignAttention_demoC :
    (assign_attention_numbers Settings.default atomsC default).1 = atomsCFar := by
  unfold assign_attention_numbers
  rw [(assignLoop_spec Settings.default atomsC atomsC (resetAttentionCounters default)).1]
  show List.map _ [atomC0, atomC1, atomC2] = _
  rw [List.map_cons, List.map_cons, List.map_cons, List.map_nil]
  rw [attentionFlag_C0, attentionFlag_C1, attentionFlag_C2]
  rfl

/-- Serial mode skips every `Far` atom, so the serial neighbour pass leaves
the demo store untouched — the coincident pair is never examined. -/
theorem serialPass_demoC :
    serialLoopNeighborPass atomsCFar (17/10) (17/10) = Except.ok atomsCFar := by
  show serialPassGo (17/10) (17/10) [0, 1, 2] atomsCFar = _
  rw [serialPassGo,
    if_pos (show (atomsCFar.getD 0 default).attention = Attention.Far from rfl),
    serialPassGo,
    if_pos (show (atomsCFar.getD 1 default).attention = Attention.Far from rfl),
    serialPassGo,
    if_pos (show (atomsCFar.getD 2 default).attention = Attention.Far from rfl),
    serialPassGo]

/-- The parallel neighbour phase on the same store raises `Coincident`. -/
theorem parallel_demoC :
    compute_neighbors_all_parallel atomsCFar (17/10) =
      Except.error (SurfaceCalculatorError.Coincident coincInfoC) := by
  have hscan : neighborScan atomsCFar (17/10) 0 (atomsCFar.getD 0 default)
      (List.range atomsCFar.length) =
      Except.error (SurfaceCalculatorError.Coincident coincInfoC) := by
    show neighborScan atomsCFar (17/10) 0 (atomsCFar.getD 0 default) [0, 1, 2] = _
    rw [neighborScan, if_pos rfl, neighborScan]
    dsimp only
    rw [if_neg (by norm_num)]
    rw [if_neg (by
      norm_num [atomsCFar, atomC0, atomC1, atomC2, atomNoRadius,
        List.getD_cons_zero, List.getD_cons_succ])]
    rw [if_pos (by
      norm_num [atomsCFar, atomC0, atomC1, atomC2, atomNoRadius,
        List.getD_cons_zero, List.getD_cons_succ])]
    rw [if_pos (by
      have : (atomsCFar.getD 0 default).distance_squared (atomsCFar.getD 1 default) =
          1/40000 := by
        show Atom.distance_squared { atomC0 with attention := Attention.Far }
          { atomC1 with attention := Attention.Far } = 1/40000
        exact atomsC_coincident_dist
      rw [this]
      norm_num)]
    rfl
  have hf : findNeighborsForAtomPar atomsCFar (17/10) 0 =
      Except.error (SurfaceCalculatorError.Coincident coincInfoC) := by
    unfold findNeighborsForAtomPar
    dsimp only
    rw [hscan]
  have hcol : collectNeighbors atomsCFar (17/10) (List.range atomsCFar.length) =
      Except.error (SurfaceCalculatorError.Coincident coincInfoC) := by
    show collectNeighbors atomsCFar (17/10) [0, 1, 2] = _
    rw [collectNeighbors, hf]
  unfold compute_neighbors_all_parallel
  rw [hcol]

/-- C1 (code bug): serial and parallel modes are not equivalent.  On the
store `atomsC` — two coincident molecule-0 atoms and one molecule-1 atom
100 Å away — `calc`'s own attention classification marks every atom `Far`
(first conjunct); with `enable_parallel = false` the driver skips every `Far`
atom, so its neighbour pass completes without touching the coincident pair
and `calc` runs to successful completion (probes and dot phases see no
eligible atom), while with `enable_parallel = true` the unconditional
parallel neighbour phase aborts `calc` with `Coincident`. -/
theorem claim1_serial_parallel_divergence :
    (assign_attention_numbers Settings.default atomsC default).1 = atomsCFar ∧
    serialLoopNeighborPass atomsCFar (17/10) (17/10) = Except.ok atomsCFar ∧
    compute_neighbors_all_parallel atomsCFar (17/10) =
      Except.error (SurfaceCalculatorError.Coincident coincInfoC) :=
  ⟨assignAttention_demoC, serialPass_demoC, parallel_demoC⟩

/-- C6 (code bug): a same-molecule pair at squared distance ≤ 1e-4 does not
always make `calc` fail.  On `atomsC`, atoms 1 and 2 share molecule 0 and sit
at squared distance 1/40000 ≤ 1e-4; after `calc`'s attention classification
every atom is `Far`, and in serial mode the driver skips all of them — the
coincidence check is never reached and the neighbour pass succeeds.  In the
default parallel mode the check does fire, and the error payload carries both
atoms' ordinals, residues and atom names. -/
theorem claim6_coincident_serial_hole :
    ((atomsCFar.getD 0 default).molecule = (atomsCFar.getD 1 default).molecule ∧
     Atom.distance_squared (atomsCFar.getD 0 default) (atomsCFar.getD 1 default) ≤
       1/10000) ∧
    (∀ a ∈ atomsCFar, a.attention = Attention.Far) ∧
    serialLoopNeighborPass atomsCFar (17/10) (17/10) = Except.ok atomsCFar ∧
    compute_neighbors_all_parallel atomsCFar (17/10) =
      Except.error (SurfaceCalculatorError.Coincident coincInfoC) ∧
    coincInfoC.natom1 = (atomsCFar.getD 0 default).natom ∧
    coincInfoC.residue1 = (atomsCFar.getD 0 default).residue ∧
    coincInfoC.atomName1 = (atomsCFar.getD 0 default).atomName ∧
    coincInfoC.natom2 = (atomsCFar.getD 1 default).natom ∧
    coincInfoC.residue2 = (atomsCFar.getD 1 default).residue ∧
    coincInfoC.atomName2 = (atomsCFar.getD 1 default).atomName := by
  refine ⟨⟨rfl, ?_⟩, ?_, serialPass_demoC, parallel_demoC, rfl, rfl, rfl, rfl, rfl, rfl⟩
  · have : Atom.distance_squared (atomsCFar.getD 0 default) (atomsCFar.getD 1 default) =
        1/40000 := by
      show Atom.distance_squared { atomC0 with attention := Attention.Far }
        { atomC1 with attention := Attention.Far } = 1/40000
      exact atomsC_coincident_dist
    rw [this]
    norm_num
  · intro a ha
    rcases List.mem_cons.mp ha with rfl | ha
    · rfl
    · rcases List.mem_cons.mp ha with rfl | ha
      · rfl
      · rcases List.mem_cons.mp ha with rfl | ha
        · rfl
        · exact absurd ha (List.not_mem_nil a)

/-- The midpoint sampling angles `a_i = (i + 0.5)·Δ` of the arc sampler. -/
def midAngle (Δ : ℝ) (i : ℕ) : ℝ := ((i : ℝ) + 1/2) * Δ

/-- The sample point the arc sampler emits at angle `a_i`. -/
def pointAt (cen xv yv : Vec3) (rad Δ : ℝ) (i : ℕ) : Vec3 :=
  cen + xv * (rad * Real.cos (midAngle Δ i)) + yv * (rad * Real.sin (midAngle Δ i))

/-- The sampling loop of `sample_arc_segment` (lines 759–765):
`a += delta; if a > angle break; push point`, run at most `fuel` times.
Returns the final accumulator value of `a` together with the points. -/
def arcLoop (cen xv yv : Vec3) (rad Δ θ : ℝ) : ℕ → ℝ → List Vec3 → ℝ × List Vec3
  | 0, a, acc => (a, acc)
  | f + 1, a, acc =>
    let a' := a + Δ
    if θ < a' then (a', acc)
    else arcLoop cen xv yv rad Δ θ f a'
      (acc ++ [cen + xv * (rad * Real.cos a') + yv * (rad * Real.sin a')])

/-- Embeds `sample_arc_segment` from `surface_generator.rs` lines 753–769 (the free
function `geom_sample_arc_segment`, lines 785–801, has an identical body):
centre, radius, local frame `x`/`y`, arc span `angle`, density.  The step is
`Δ = 1/(√density·rad)`, the loop cap is 100000 and the per-sample arc length
is `rad·angle/n` over the `n` emitted points. -/
def sample_arc_segment (cen : Vec3) (rad : ℝ) (xv yv : Vec3) (angle density : ℝ) :
    Except SurfaceCalculatorError (List Vec3 × ℝ) :=
  if rad ≤ 0 then Except.ok ([], 0)
  else
    let Δ := 1 / (Real.sqrt density * rad)
    let out := arcLoop cen xv yv rad Δ angle 100000 (-Δ/2) []
    if out.1 + Δ < angle then Except.error SurfaceCalculatorError.TooManySubdivisions
    else Except.ok (out.2,
      if out.2.isEmpty then 0 else rad * angle / ((out.2.length : ℕ) : ℝ))

/-- The number of indices `i` with `midAngle Δ i ≤ θ` (for `Δ > 0`). -/
def fitCount (Δ θ : ℝ) : ℕ := (⌊θ/Δ + 1/2⌋).toNat

/-- The value `fitCount` counts exactly the midpoint angles inside the span. -/
theorem midAngle_le_iff (Δ θ : ℝ) (hΔ : 0 < Δ) (i : ℕ) :
    midAngle Δ i ≤ θ ↔ i < fitCount Δ θ := by
  unfold midAngle fitCount
  rw [← le_div_iff₀ hΔ]
  constructor
  · intro h
    have h1 : (i : ℝ) ≤ θ/Δ - 1/2 := by linarith
    have h2 : (i : ℤ) ≤ ⌊θ/Δ - 1/2⌋ := Int.le_floor.mpr (by push_cast; linarith)
    have h3 : (i : ℤ) < ⌊θ/Δ - 1/2⌋ + 1 := by omega
    have h4 : ⌊θ/Δ - 1/2⌋ + 1 = ⌊θ/Δ + 1/2⌋ := by
      rw [show θ/Δ + 1/2 = (θ/Δ - 1/2) + 1 by ring, Int.floor_add_one]
    rw [h4] at h3
    omega
  · intro h
    have h4 : ⌊θ/Δ - 1/2⌋ + 1 = ⌊θ/Δ + 1/2⌋ := by
      rw [show θ/Δ + 1/2 = (θ/Δ - 1/2) + 1 by ring, Int.floor_add_one]
    have h3 : (i : ℤ) < ⌊θ/Δ + 1/2⌋ := by omega
    have h2 : (i : ℤ) ≤ ⌊θ/Δ - 1/2⌋ := by omega
    have h1 : (i : ℝ) ≤ θ/Δ - 1/2 := by
      have := Int.le_floor.mp h2
      push_cast at this
      linarith
    linarith

/-- Closed form of the sampling loop: starting one step before the `m`-th
midpoint with `f` iterations of fuel, it pushes the midpoints
`m, m+1, …` that lie inside the span, up to `f` of them. -/
theorem arcLoop_spec (cen xv yv : Vec3) (rad Δ θ : ℝ) (hΔ : 0 < Δ) :
    ∀ (f m : ℕ) (acc : List Vec3),
    arcLoop cen xv yv rad Δ θ f (midAngle Δ m - Δ) acc =
      if f ≤ fitCount Δ θ - m
      then (midAngle Δ (m + f) - Δ,
            acc ++ (List.range' m f).map (pointAt cen xv yv rad Δ))
      else (midAngle Δ (m + (fitCount Δ θ - m)),
            acc ++ (List.range' m (fitCount Δ θ - m)).map (pointAt cen xv yv rad Δ)) := by
  intro f
  induction f with
  | zero =>
    intro m acc
    rw [if_pos (Nat.zero_le _)]
    simp [arcLoop]
  | succ f ih =>
    intro m acc
    rw [arcLoop]
    rw [show midAngle Δ m - Δ + Δ = midAngle Δ m by ring]
    by_cases hin : midAngle Δ m ≤ θ
    · have hmN : m < fitCount Δ θ := (midAngle_le_iff Δ θ hΔ m).mp hin
      rw [if_neg (not_lt.mpr hin)]
      have harg : midAngle Δ m = midAngle Δ (m + 1) - Δ := by
        unfold midAngle
        push_cast
        ring
      have hpt : cen + xv * (rad * Real.cos (midAngle Δ m)) +
          yv * (rad * Real.sin (midAngle Δ m)) = pointAt cen xv yv rad Δ m := rfl
      rw [hpt, harg, ih (m + 1) (acc ++ [pointAt cen xv yv rad Δ m])]
      have hsub : fitCount Δ θ - m = (fitCount Δ θ - (m + 1)) + 1 := by omega
      by_cases hf : f ≤ fitCount Δ θ - (m + 1)
      · rw [if_pos hf, if_pos (by omega), Prod.mk.injEq]
        refine ⟨?_, ?_⟩
        · rw [show m + 1 + f = m + (f + 1) by omega]
        · rw [List.range'_succ, List.map_cons]
          simp
      · rw [if_neg hf, if_neg (by omega), Prod.mk.injEq]
        refine ⟨?_, ?_⟩
        · rw [show m + 1 + (fitCount Δ θ - (m + 1)) = m + (fitCount Δ θ - m) by omega]
        · rw [hsub, List.range'_succ, List.map_cons]
          simp
    · have hmN : ¬ m < fitCount Δ θ := fun hc => hin ((midAngle_le_iff Δ θ hΔ m).mpr hc)
      have hNm : fitCount Δ θ - m = 0 := by omega
      rw [if_pos (not_le.mp hin)]
      rw [if_neg (by omega)]
      rw [hNm]
      simp

/-- Full characterisation of `sample_arc_segment` for positive radius and
density: it fails with `TooManySubdivisions` exactly when the 100001-st
midpoint angle still lies strictly inside the span, and otherwise emits the
first `min (fitCount Δ θ) 100000` midpoint samples with per-sample arc
length `rad·θ/n`. -/
theorem sample_arc_segment_spec (cen xv yv : Vec3) (rad θ density : ℝ)
    (hδ : 0 < density) (hr : 0 < rad) :
    0 < 1 / (Real.sqrt density * rad) ∧
    ((sample_arc_segment cen rad xv yv θ density =
        Except.error SurfaceCalculatorError.TooManySubdivisions) ↔
      midAngle (1 / (Real.sqrt density * rad)) 100000 < θ) ∧
    (¬ midAngle (1 / (Real.sqrt density * rad)) 100000 < θ →
      sample_arc_segment cen rad xv yv θ density = Except.ok
        ((List.range (min (fitCount (1 / (Real.sqrt density * rad)) θ) 100000)).map
          (pointAt cen xv yv rad (1 / (Real.sqrt density * rad))),
         if min (fitCount (1 / (Real.sqrt density * rad)) θ) 100000 = 0 then 0
         else rad * θ /
           ((min (fitCount (1 / (Real.sqrt density * rad)) θ) 100000 : ℕ) : ℝ))) := by
  have hΔ : 0 < 1 / (Real.sqrt density * rad) :=
    one_div_pos.mpr (mul_pos (Real.sqrt_pos.mpr hδ) hr)
  refine ⟨hΔ, ?_⟩
  have hunf : sample_arc_segment cen rad xv yv θ density =
      (if (arcLoop cen xv yv rad (1 / (Real.sqrt density * rad)) θ 100000
            (-(1 / (Real.sqrt density * rad))/2) []).1 +
          (1 / (Real.sqrt density * rad)) < θ
       then Except.error SurfaceCalculatorError.TooManySubdivisions
       else Except.ok
        ((arcLoop cen xv yv rad (1 / (Real.sqrt density * rad)) θ 100000
            (-(1 / (Real.sqrt density * rad))/2) []).2,
         if (arcLoop cen xv yv rad (1 / (Real.sqrt density * rad)) θ 100000
              (-(1 / (Real.sqrt density * rad))/2) []).2.isEmpty then 0
         else rad * θ /
           (((arcLoop cen xv yv rad (1 / (Real.sqrt density * rad)) θ 100000
              (-(1 / (Real.sqrt density * rad))/2) []).2.length : ℕ) : ℝ))) := by
    unfold sample_arc_segment
    rw [if_neg (not_le.mpr hr)]
  have hstart : -(1 / (Real.sqrt density * rad))/2 =
      midAngle (1 / (Real.sqrt density * rad)) 0 - (1 / (Real.sqrt density * rad)) := by
    unfold midAngle
    push_cast
    ring
  rw [hstart] at hunf
  rw [arcLoop_spec cen xv yv rad (1 / (Real.sqrt density * rad)) θ hΔ 100000 0 []] at hunf
  by_cases hcap : 100000 ≤ fitCount (1 / (Real.sqrt density * rad)) θ - 0
  · rw [if_pos hcap] at hunf
    dsimp only at hunf
    have hcond : (midAngle (1 / (Real.sqrt density * rad)) (0 + 100000) -
          (1 / (Real.sqrt density * rad))) + (1 / (Real.sqrt density * rad)) < θ ↔
        midAngle (1 / (Real.sqrt density * rad)) 100000 < θ := by
      rw [sub_add_cancel]
    by_cases herr : midAngle (1 / (Real.sqrt density * rad)) 100000 < θ
    · rw [if_pos (hcond.mpr herr)] at hunf
      refine ⟨by rw [hunf]; exact ⟨fun _ => herr, fun _ => rfl⟩, fun hc => absurd herr hc⟩
    · rw [if_neg (fun hc => herr (hcond.mp hc))] at hunf
      have hmin : min (fitCount (1 / (Real.sqrt density * rad)) θ) 100000 = 100000 := by
        omega
      refine ⟨?_, ?_⟩
      · rw [hunf]
        constructor
        · intro hc
          exact absurd hc (by simp)
        · intro hc
          exact absurd hc herr
      · intro _
        rw [hunf, hmin]
        rw [show (List.range' 0 100000) = List.range 100000 from
          (List.range_eq_range' 100000).symm]
        rw [List.nil_append]
        have hne : ((List.range 100000).map
            (pointAt cen xv yv rad (1 / (Real.sqrt density * rad)))).isEmpty = false := by
          simp [List.isEmpty_iff]
        rw [hne]
        simp
  · rw [if_neg hcap] at hunf
    dsimp only at hunf
    have hN : fitCount (1 / (Real.sqrt density * rad)) θ < 100000 := by omega
    have hth : θ < midAngle (1 / (Real.sqrt density * rad))
        (fitCount (1 / (Real.sqrt density * rad)) θ) := by
      by_contra hc
      push_neg at hc
      have := (midAngle_le_iff (1 / (Real.sqrt density * rad)) θ hΔ
        (fitCount (1 / (Real.sqrt density * rad)) θ)).mp hc
      omega
    have hcond : ¬ (midAngle (1 / (Real.sqrt density * rad))
          (0 + (fitCount (1 / (Real.sqrt density * rad)) θ - 0)) +
          (1 / (Real.sqrt density * rad)) < θ) := by
      rw [show (0 + (fitCount (1 / (Real.sqrt density * rad)) θ - 0)) =
        fitCount (1 / (Real.sqrt density * rad)) θ by omega]
      intro hc
      have : θ < θ := lt_trans (lt_trans hth (by linarith)) hc
      exact absurd this (lt_irrefl θ)
    rw [if_neg hcond] at hunf
    have hnerr : ¬ midAngle (1 / (Real.sqrt density * rad)) 100000 < θ := by
      intro hc
      have hle := le_of_lt hc
      have := (midAngle_le_iff (1 / (Real.sqrt density * rad)) θ hΔ 100000).mp hle
      omega
    have hmin : min (fitCount (1 / (Real.sqrt density * rad)) θ) 100000 =
        fitCount (1 / (Real.sqrt density * rad)) θ := by omega
    refine ⟨?_, ?_⟩
    · rw [hunf]
      constructor
      · intro hc
        exact absurd hc (by simp)
      · intro hc
        exact absurd hc hnerr
    · intro _
      rw [hunf, hmin]
      simp only [Nat.sub_zero, List.nil_append, ← List.range_eq_range']
      by_cases h0 : fitCount (1 / (Real.sqrt density * rad)) θ = 0
      · rw [h0]
        simp
      · have hne : ((List.range (fitCount (1 / (Real.sqrt density * rad)) θ)).map
            (pointAt cen xv yv rad (1 / (Real.sqrt density * rad)))).isEmpty = false := by
          simp [List.isEmpty_iff]
          simpa using h0
        rw [hne, if_neg h0]
        simp

/-- The non-positive-radius short circuit of the sampler (line 755). -/
theorem sample_arc_segment_nonpos (cen xv yv : Vec3) (rad θ density : ℝ)
    (hr : rad ≤ 0) :
    sample_arc_segment cen rad xv yv θ density = Except.ok ([], 0) := by
  unfold sample_arc_segment
  rw [if_pos hr]

/-- C5 (amended): for density δ > 0 and radius r > 0 the sampler emits the
points at angles `a_i = (i+0.5)·Δ`, `Δ = 1/(√δ·r)`, for those `i` with
`a_i ≤ θ`, capped at the first 100000 of them; the per-sample arc length is
`r·θ/n` over the `n` emitted points (0 when none are emitted); when `r ≤ 0`
it emits no points and returns zero area; and it fails with
`TooManySubdivisions` exactly when `a_100000 < θ`, i.e. when the 100001-st
midpoint angle still lies strictly inside the span. -/
theorem claim5_arc_sampler_amended (cen xv yv : Vec3) (rad θ density : ℝ)
    (hδ : 0 < density) :
    (∀ r', r' ≤ 0 → sample_arc_segment cen r' xv yv θ density = Except.ok ([], 0)) ∧
    (0 < rad →
      (∀ i : ℕ, (midAngle (1 / (Real.sqrt density * rad)) i ≤ θ ↔
        i < fitCount (1 / (Real.sqrt density * rad)) θ)) ∧
      ((sample_arc_segment cen rad xv yv θ density =
          Except.error SurfaceCalculatorError.TooManySubdivisions) ↔
        midAngle (1 / (Real.sqrt density * rad)) 100000 < θ) ∧
      (¬ midAngle (1 / (Real.sqrt density * rad)) 100000 < θ →
        sample_arc_segment cen rad xv yv θ density = Except.ok
          ((List.range (min (fitCount (1 / (Real.sqrt density * rad)) θ) 100000)).map
            (pointAt cen xv yv rad (1 / (Real.sqrt density * rad))),
           if min (fitCount (1 / (Real.sqrt density * rad)) θ) 100000 = 0 then 0
           else rad * θ /
             ((min (fitCount (1 / (Real.sqrt density * rad)) θ) 100000 : ℕ) : ℝ)))) := by
  refine ⟨fun r' hr' => sample_arc_segment_nonpos cen xv yv r' θ density hr', fun hr => ?_⟩
  obtain ⟨hΔ, h2, h3⟩ := sample_arc_segment_spec cen xv yv rad θ density hδ hr
  exact ⟨fun i => midAngle_le_iff (1 / (Real.sqrt density * rad)) θ hΔ i, h2, h3⟩

/-- The step at density 1 and radius 1/2 is exactly 2. -/
theorem deltaBoundary : (1:ℝ) / (Real.sqrt 1 * (1/2)) = 2 := by
  rw [Real.sqrt_one]
  norm_num

/-- At Δ = 2, span 200001 admits exactly 100001 midpoint angles. -/
theorem fitCountBoundary : fitCount 2 200001 = 100001 := by
  unfold fitCount
  rw [show (200001:ℝ)/2 + 1/2 = ((100001:ℕ):ℝ) by norm_num, Int.floor_natCast]
  rfl

/-- C5 (counterexample): with density 1, radius 1/2 (so Δ = 2) and span
θ = 200001, all of a_0 … a_100000 satisfy `a_i ≤ θ` — 100001 angles — yet
the sampler succeeds with exactly the first 100000 points and no
`TooManySubdivisions` failure, refuting "emits exactly the points … for
those i with a_i ≤ θ" and the cap-failure clause read over the same set. -/
theorem claim5_arc_sampler_cex :
    (∃ ps, sample_arc_segment Vec3.zero (1/2) ⟨1,0,0⟩ ⟨0,1,0⟩ 200001 1 =
      Except.ok ((List.range 100000).map
        (pointAt Vec3.zero ⟨1,0,0⟩ ⟨0,1,0⟩ (1/2) 2), ps)) ∧
    ((List.range 100000).map (pointAt Vec3.zero ⟨1,0,0⟩ ⟨0,1,0⟩ (1/2) 2)).length =
      100000 ∧
    (∀ i : ℕ, midAngle 2 i ≤ 200001 ↔ i < 100001) ∧
    sample_arc_segment Vec3.zero (1/2) ⟨1,0,0⟩ ⟨0,1,0⟩ 200001 1 ≠
      Except.error SurfaceCalculatorError.TooManySubdivisions := by
  obtain ⟨hΔ, h2, h3⟩ := sample_arc_segment_spec Vec3.zero ⟨1,0,0⟩ ⟨0,1,0⟩ (1/2) 200001 1
    (by norm_num) (by norm_num)
  rw [deltaBoundary] at hΔ h2 h3
  have hnerr : ¬ midAngle 2 100000 < 200001 := by
    unfold midAngle
    norm_num
  have hok := h3 hnerr
  rw [fitCountBoundary] at hok
  have hmin : min 100001 100000 = 100000 := by norm_num
  rw [hmin] at hok
  refine ⟨⟨_, hok⟩, by simp, ?_, ?_⟩
  · intro i
    rw [midAngle_le_iff 2 200001 (by norm_num) i, fitCountBoundary]
  · intro hc
    exact absurd (h2.mp hc) hnerr

/-- C5 (witness for the amended theorem), at density 1, radius 1/2,
span 3. -/
theorem claim5_arc_sampler_amended_witness :
    (∀ r', r' ≤ 0 →
      sample_arc_segment Vec3.zero r' ⟨1,0,0⟩ ⟨0,1,0⟩ 3 1 = Except.ok ([], 0)) ∧
    (0 < (1/2 : ℝ) →
      (∀ i : ℕ, (midAngle (1 / (Real.sqrt 1 * (1/2))) i ≤ 3 ↔
        i < fitCount (1 / (Real.sqrt 1 * (1/2))) 3)) ∧
      ((sample_arc_segment Vec3.zero (1/2) ⟨1,0,0⟩ ⟨0,1,0⟩ 3 1 =
          Except.error SurfaceCalculatorError.TooManySubdivisions) ↔
        midAngle (1 / (Real.sqrt 1 * (1/2))) 100000 < 3) ∧
      (¬ midAngle (1 / (Real.sqrt 1 * (1/2))) 100000 < 3 →
        sample_arc_segment Vec3.zero (1/2) ⟨1,0,0⟩ ⟨0,1,0⟩ 3 1 = Except.ok
          ((List.range (min (fitCount (1 / (Real.sqrt 1 * (1/2))) 3) 100000)).map
            (pointAt Vec3.zero ⟨1,0,0⟩ ⟨0,1,0⟩ (1/2) (1 / (Real.sqrt 1 * (1/2)))),
           if min (fitCount (1 / (Real.sqrt 1 * (1/2))) 3) 100000 = 0 then 0
           else (1/2 : ℝ) * 3 /
             ((min (fitCount (1 / (Real.sqrt 1 * (1/2))) 3) 100000 : ℕ) : ℝ)))) :=
  claim5_arc_sampler_amended Vec3.zero ⟨1,0,0⟩ ⟨0,1,0⟩ (1/2) 3 1 (by norm_num)

/-- Embeds `check_atom_collision2_idx` from `surface_generator.rs` lines 593–600:
does any neighbour other than the two partner atoms intrude the candidate
probe centre? -/
def check_atom_collision2_idx (atoms : List Atom) (rp : ℝ) (probe_center : Vec3)
    (atomA atomB : Atom) (neighbor_indices : List ℕ) : Bool :=
  neighbor_indices.any (fun ni =>
    let neighbor := atoms.getD ni default
    if neighbor.natom = atomA.natom ∨ neighbor.natom = atomB.natom then false
    else decide (probe_center.distance_squared neighbor.coor ≤
      (neighbor.radius + rp) ^ 2))

/-- The `k` loop of `build_probe_triplets` (`surface_generator.rs`
lines 432–466).  The boolean result records the degenerate-wedge early
`return Ok(())` (line 444), which abandons the remaining candidates and
skips the final `made_probe` accessibility update.  The two-iteration sign
loop (`is0 in 1..=2`, sign = +1 then −1) is unrolled. -/
def probeTripletLoop (atoms : List Atom) (rp : ℝ) (atom1_index : ℕ) (atom2 : Atom)
    (unit_axis midplane_center : Vec3) (ring_radius expanded_radius_i : ℝ)
    (neighbor_indices : List ℕ) : List ℕ → List Probe × Bool
  | [] => ([], false)
  | k :: rest =>
    let atom3 := atoms.getD k default
    if atom3.natom ≤ atom2.natom then
      probeTripletLoop atoms rp atom1_index atom2 unit_axis midplane_center
        ring_radius expanded_radius_i neighbor_indices rest
    else
      let expanded_radius_j := atom2.radius + rp
      let expanded_radius_k := atom3.radius + rp
      let dist_jk := atom2.distance atom3
      if expanded_radius_j + expanded_radius_k ≤ dist_jk then
        probeTripletLoop atoms rp atom1_index atom2 unit_axis midplane_center
          ring_radius expanded_radius_i neighbor_indices rest
      else
        let dist_ik := (atoms.getD atom1_index default).distance atom3
        if expanded_radius_i + expanded_radius_k ≤ dist_ik then
          probeTripletLoop atoms rp atom1_index atom2 unit_axis midplane_center
            ring_radius expanded_radius_i neighbor_indices rest
        else if (atoms.getD atom1_index default).attention = Attention.Far ∧
            atom2.attention = Attention.Far ∧ atom3.attention = Attention.Far then
          probeTripletLoop atoms rp atom1_index atom2 unit_axis midplane_center
            ring_radius expanded_radius_i neighbor_indices rest
        else
          let unit_axis_ik := (atom3.coor - (atoms.getD atom1_index default).coor) / dist_ik
          let sin_wedge := Real.sin (Real.arccos (unit_axis.dot unit_axis_ik))
          if sin_wedge ≤ 0 then
            let dtijk2 := midplane_center.distance atom3.coor
            let rkp2 := expanded_radius_k * expanded_radius_k - ring_radius * ring_radius
            if dtijk2 < rkp2 then ([], true)
            else
              probeTripletLoop atoms rp atom1_index atom2 unit_axis midplane_center
                ring_radius expanded_radius_i neighbor_indices rest
          else
            let axis_normal := (unit_axis.cross unit_axis_ik) / sin_wedge
            let perp_tangent := axis_normal.cross unit_axis
            let asymmetry_term_ik := (expanded_radius_i * expanded_radius_i -
              expanded_radius_k * expanded_radius_k) / dist_ik
            let midpoint_ik := ((atoms.getD atom1_index default).coor + atom3.coor) *
              (1/2 : ℝ) + unit_axis_ik * (asymmetry_term_ik * (1/2 : ℝ))
            let componentwise0 := midpoint_ik - midplane_center
            let component_sum := unit_axis_ik.x * componentwise0.x +
              unit_axis_ik.y * componentwise0.y + unit_axis_ik.z * componentwise0.z
            let torus_center := midplane_center + perp_tangent * (component_sum / sin_wedge)
            let height2 := expanded_radius_i * expanded_radius_i -
              torus_center.distance_squared (atoms.getD atom1_index default).coor
            if height2 ≤ 0 then
              probeTripletLoop atoms rp atom1_index atom2 unit_axis midplane_center
                ring_radius expanded_radius_i neighbor_indices rest
            else
              let height := Real.sqrt height2
              let center1 := torus_center + axis_normal * (height * (1:ℝ))
              let part1 : List Probe :=
                if check_atom_collision2_idx atoms rp center1 atom2 atom3 neighbor_indices
                then []
                else [{ atomIndices := (atom1_index, atom2.natom - 1, k),
                        height := height, point := center1, alt := axis_normal * (1:ℝ) }]
              let center2 := torus_center + axis_normal * (height * (-1:ℝ))
              let part2 : List Probe :=
                if check_atom_collision2_idx atoms rp center2 atom2 atom3 neighbor_indices
                then []
                else [{ atomIndices := (atom2.natom - 1, atom1_index, k),
                        height := height, point := center2, alt := axis_normal * (-1:ℝ) }]
              let out := probeTripletLoop atoms rp atom1_index atom2 unit_axis
                midplane_center ring_radius expanded_radius_i neighbor_indices rest
              (part1 ++ part2 ++ out.1, out.2)

/-- Embeds `build_probe_triplets` from `surface_generator.rs` lines 426–469: the
produced probes together with the `made_probe`-driven accessibility flag
(only set when the loop completed without the degenerate early return and
pushed at least one probe).  `atom2` is handed to the source function as a
raw pointer into the store; here it is the index `atom2_index`. -/
def build_probe_triplets (atoms : List Atom) (rp : ℝ) (atom1_index atom2_index : ℕ)
    (unit_axis midplane_center : Vec3) (ring_radius : ℝ) : List Probe × Bool :=
  let neighbor_indices := (atoms.getD atom1_index default).neighbor_indices
  let expanded_radius_i := (atoms.getD atom1_index default).radius + rp
  let atom2 := atoms.getD atom2_index default
  let out := probeTripletLoop atoms rp atom1_index atom2 unit_axis midplane_center
    ring_radius expanded_radius_i neighbor_indices neighbor_indices
  (out.1, (! out.2) && (! out.1.isEmpty))

/-- Every probe the loop pushes comes from a candidate `k` in the list with
strictly larger ordinal than `atom2`, a triple that is not all-`Far`, and has
its indices in one of the two sign-dependent layouts. -/
theorem probeTripletLoop_mem (atoms : List Atom) (rp : ℝ) (atom1_index : ℕ)
    (atom2 : Atom) (ua mc : Vec3) (rr eri : ℝ) (nbrs : List ℕ) (l : List ℕ) :
    ∀ p, p ∈ (probeTripletLoop atoms rp atom1_index atom2 ua mc rr eri nbrs l).1 →
      ∃ k, k ∈ l ∧ atom2.natom < (atoms.getD k default).natom ∧
        ¬((atoms.getD atom1_index default).attention = Attention.Far ∧
          atom2.attention = Attention.Far ∧
          (atoms.getD k default).attention = Attention.Far) ∧
        (p.atomIndices = (atom1_index, atom2.natom - 1, k) ∨
         p.atomIndices = (atom2.natom - 1, atom1_index, k)) := by
  induction l with
  | nil =>
    intro p hp
    simp [probeTripletLoop] at hp
  | cons k rest ih =>
    intro p hp
    rw [probeTripletLoop] at hp
    dsimp only at hp
    split at hp
    · obtain ⟨k', h1, h2, h3, h4⟩ := ih p hp
      exact ⟨k', List.mem_cons_of_mem _ h1, h2, h3, h4⟩
    · next hc1 =>
      split at hp
      · obtain ⟨k', h1, h2, h3, h4⟩ := ih p hp
        exact ⟨k', List.mem_cons_of_mem _ h1, h2, h3, h4⟩
      · split at hp
        · obtain ⟨k', h1, h2, h3, h4⟩ := ih p hp
          exact ⟨k', List.mem_cons_of_mem _ h1, h2, h3, h4⟩
        · split at hp
          · obtain ⟨k', h1, h2, h3, h4⟩ := ih p hp
            exact ⟨k', List.mem_cons_of_mem _ h1, h2, h3, h4⟩
          · next hfar =>
            split at hp
            · split at hp
              · simp at hp
              · obtain ⟨k', h1, h2, h3, h4⟩ := ih p hp
                exact ⟨k', List.mem_cons_of_mem _ h1, h2, h3, h4⟩
            · split at hp
              · obtain ⟨k', h1, h2, h3, h4⟩ := ih p hp
                exact ⟨k', List.mem_cons_of_mem _ h1, h2, h3, h4⟩
              · dsimp only at hp
                rw [List.mem_append, List.mem_append] at hp
                rcases hp with (hp | hp) | hp
                · split at hp
                  · simp at hp
                  · obtain rfl := List.mem_singleton.mp hp
                    exact ⟨k, List.mem_cons_self _ _, by omega, hfar, Or.inl rfl⟩
                · split at hp
                  · simp at hp
                  · obtain rfl := List.mem_singleton.mp hp
                    exact ⟨k, List.mem_cons_self _ _, by omega, hfar, Or.inr rfl⟩
                · obtain ⟨k', h1, h2, h3, h4⟩ := ih p hp
                  exact ⟨k', List.mem_cons_of_mem _ h1, h2, h3, h4⟩

/-- C8 (amended): during probe placement, every candidate triple (i,j,k) in
which all three atoms are in state `Far` is skipped — no probe whose three
atoms are all `Far` is ever created by `build_probe_triplets`.  (The
all-`Consider` skip of the spec belongs to the concave phase; the placement
gate tests `Far`.)  `hj` is the store invariant `natom = index + 1` at the
partner atom. -/
theorem claim8_all_far_triples_skipped (atoms : List Atom) (rp : ℝ) (i j : ℕ)
    (ua mc : Vec3) (rr : ℝ)
    (hj : (atoms.getD j default).natom = j + 1) :
    ∀ p ∈ (build_probe_triplets atoms rp i j ua mc rr).1,
      ¬((atoms.getD p.atomIndices.1 default).attention = Attention.Far ∧
        (atoms.getD p.atomIndices.2.1 default).attention = Attention.Far ∧
        (atoms.getD p.atomIndices.2.2 default).attention = Attention.Far) := by
  intro p hp
  unfold build_probe_triplets at hp
  dsimp only at hp
  obtain ⟨k, _, _, hfar, hidx⟩ := probeTripletLoop_mem atoms rp i (atoms.getD j default)
    ua mc rr ((atoms.getD i default).radius + rp)
    ((atoms.getD i default).neighbor_indices)
    ((atoms.getD i default).neighbor_indices) p hp
  have hj1 : (atoms.getD j default).natom - 1 = j := by omega
  rcases hidx with h | h
  · rw [h]
    dsimp only
    rw [hj1]
    rintro ⟨ha, hb, hc⟩
    exact hfar ⟨ha, hb, hc⟩
  · rw [h]
    dsimp only
    rw [hj1]
    rintro ⟨ha, hb, hc⟩
    exact hfar ⟨hb, ha, hc⟩

/-- C9 (amended): every probe stored by `build_probe_triplets` has three
pairwise-distinct atom indices whose third entry `k` is strictly greatest;
the first two are the pair `{i, j}` — in ascending order `(i, j, k)` for the
+1 placement and swapped `(j, i, k)` for the −1 placement.  `hnat` is the
store invariant, `hij` the caller's `natom(j) > natom(i)` loop guard. -/
theorem claim9_probe_index_layout (atoms : List Atom) (rp : ℝ) (i j : ℕ)
    (ua mc : Vec3) (rr : ℝ)
    (hnat : ∀ k, k < atoms.length → (atoms.getD k default).natom = k + 1)
    (hij : i < j) (hjlen : j < atoms.length) :
    ∀ p ∈ (build_probe_triplets atoms rp i j ua mc rr).1,
      ∃ k, i < j ∧ j < k ∧ k < atoms.length ∧
        (p.atomIndices = (i, j, k) ∨ p.atomIndices = (j, i, k)) := by
  intro p hp
  unfold build_probe_triplets at hp
  dsimp only at hp
  obtain ⟨k, _, hklt, _, hidx⟩ := probeTripletLoop_mem atoms rp i (atoms.getD j default)
    ua mc rr ((atoms.getD i default).radius + rp)
    ((atoms.getD i default).neighbor_indices)
    ((atoms.getD i default).neighbor_indices) p hp
  have hj2 : (atoms.getD j default).natom = j + 1 := hnat j hjlen
  have hklen : k < atoms.length := by
    by_contra hc
    push_neg at hc
    have hdef : atoms.getD k default = default := List.getD_eq_default _ _ hc
    rw [hdef, hj2] at hklt
    have hdn : (default : Atom).natom = 0 := rfl
    omega
  have hk3 : (atoms.getD k default).natom = k + 1 := hnat k hklen
  have hjk : j < k := by
    rw [hj2, hk3] at hklt
    omega
  have hj1 : (atoms.getD j default).natom - 1 = j := by omega
  rw [hj1] at hidx
  exact ⟨k, hij, hjk, hklen, hidx⟩

/-- Probe-demo atom i: radius 2 at the origin, neighbours sorted by
ascending squared distance (atom 2 at 9, atom 1 at 16). -/
def atomP0 (α : Attention) : Atom :=
  { atomNoRadius with
      natom := 1
      molecule := 0
      radius := 2
      attention := α
      neighbor_indices := [2, 1] }

/-- Probe-demo atom j: radius 2 at (4,0,0). -/
def atomP1 (α : Attention) : Atom :=
  { atomNoRadius with
      natom := 2
      molecule := 0
      radius := 2
      attention := α
      coor := ⟨4, 0, 0⟩ }

/-- Probe-demo atom k: radius 2 at (0,3,0) — a 3-4-5 right triangle. -/
def atomP2 (α : Attention) : Atom :=
  { atomNoRadius with
      natom := 3
      molecule := 0
      radius := 2
      attention := α
      coor := ⟨0, 3, 0⟩ }

/-- The probe-demo store, parameterised by a common attention state. -/
def atomsP (α : Attention) : List Atom := [atomP0 α, atomP1 α, atomP2 α]

/-- Demo edge length jk. -/
theorem distVec12 : Vec3.distance ⟨4, 0, 0⟩ ⟨0, 3, 0⟩ = 5 := by
  unfold Vec3.distance
  rw [show Vec3.distance_squared ⟨4, 0, 0⟩ ⟨0, 3, 0⟩ = 25 from by
    norm_num [Vec3.distance_squared, Vec3.magnitude_squared, Vec3.sub_def]]
  rw [show (25:ℝ) = 5^2 by norm_num, Real.sqrt_sq (by norm_num : (0:ℝ) ≤ 5)]

/-- Demo edge length ik. -/
theorem distVec02 : Vec3.distance ⟨0, 0, 0⟩ ⟨0, 3, 0⟩ = 3 := by
  unfold Vec3.distance
  rw [show Vec3.distance_squared ⟨0, 0, 0⟩ ⟨0, 3, 0⟩ = 9 from by
    norm_num [Vec3.distance_squared, Vec3.magnitude_squared, Vec3.sub_def]]
  rw [show (9:ℝ) = 3^2 by norm_num, Real.sqrt_sq (by norm_num : (0:ℝ) ≤ 3)]

/-- The demo wedge is right-angled: the sine of its angle is 1. -/
theorem sinArcZero : Real.sin (Real.arccos 0) = 1 := by
  rw [Real.sin_arccos]
  norm_num

/-- Evaluating `build_probe_triplets` on the demo store with any non-`Far`
common attention α: two probes are created, with index triples (0,1,2) for
the +1 side and (1,0,2) — first two swapped — for the −1 side. -/
theorem buildProbeTriplets_demo (α : Attention) (hα : α ≠ Attention.Far) :
    ((build_probe_triplets (atomsP α) 1 0 1 ⟨1, 0, 0⟩ ⟨2, 0, 0⟩ (Real.sqrt 5)).1).map
      Probe.atomIndices = [(0, 1, 2), (1, 0, 2)] := by
  norm_num [build_probe_triplets, probeTripletLoop, check_atom_collision2_idx,
    atomsP, atomP0, atomP1, atomP2, atomNoRadius, Atom.distance,
    Vec3.distance_squared, Vec3.magnitude_squared, Vec3.sub_def, Vec3.add_def,
    Vec3.smul_def, Vec3.sdiv_def, Vec3.dot, Vec3.cross, Vec3.zero,
    List.getD_cons_zero, List.getD_cons_succ, distVec12, distVec02, sinArcZero, hα]

/-- C8 (counterexample): a candidate triple whose three atoms are all in
state `Consider` is not skipped — on the demo store with every attention set
to `Consider`, `build_probe_triplets` creates two probes (the placement gate
tests all-`Far`, not all-`Consider`). -/
theorem claim8_consider_triple_not_skipped_cex :
    (∀ a ∈ atomsP Attention.Consider, a.attention = Attention.Consider) ∧
    ((build_probe_triplets (atomsP Attention.Consider) 1 0 1 ⟨1, 0, 0⟩ ⟨2, 0, 0⟩
        (Real.sqrt 5)).1).map Probe.atomIndices = [(0, 1, 2), (1, 0, 2)] ∧
    (build_probe_triplets (atomsP Attention.Consider) 1 0 1 ⟨1, 0, 0⟩ ⟨2, 0, 0⟩
        (Real.sqrt 5)).1 ≠ [] := by
  have hα : Attention.Consider ≠ Attention.Far := by simp
  have h := buildProbeTriplets_demo Attention.Consider hα
  refine ⟨?_, h, ?_⟩
  · intro a ha
    rcases List.mem_cons.mp ha with rfl | ha
    · rfl
    · rcases List.mem_cons.mp ha with rfl | ha
      · rfl
      · rcases List.mem_cons.mp ha with rfl | ha
        · rfl
        · exact absurd ha (List.not_mem_nil a)
  · intro hc
    rw [hc] at h
    exact absurd h (by simp)

/-- C8 (witness for the amended theorem), on the demo store with `Buried`
attentions. -/
theorem claim8_all_far_triples_skipped_witness :
    ((atomsP Attention.Buried).getD 1 default).natom = 1 + 1 ∧
    (∀ p ∈ (build_probe_triplets (atomsP Attention.Buried) 1 0 1 ⟨1, 0, 0⟩ ⟨2, 0, 0⟩
        (Real.sqrt 5)).1,
      ¬(((atomsP Attention.Buried).getD p.atomIndices.1 default).attention =
          Attention.Far ∧
        ((atomsP Attention.Buried).getD p.atomIndices.2.1 default).attention =
          Attention.Far ∧
        ((atomsP Attention.Buried).getD p.atomIndices.2.2 default).attention =
          Attention.Far)) :=
  ⟨rfl,
   claim8_all_far_triples_skipped (atomsP Attention.Buried) 1 0 1 ⟨1, 0, 0⟩ ⟨2, 0, 0⟩
     (Real.sqrt 5) rfl⟩

/-- C9 (counterexample): the −1-side probe of the demo store is stored with
its first two indices swapped — atom ordinals 2, 1, 3 — so not every stored
probe has its indices strictly increasing by `natom`. -/
theorem claim9_probe_order_cex :
    ∃ p ∈ (build_probe_triplets (atomsP Attention.Buried) 1 0 1 ⟨1, 0, 0⟩ ⟨2, 0, 0⟩
        (Real.sqrt 5)).1,
      ¬(((atomsP Attention.Buried).getD p.atomIndices.1 default).natom <
        ((atomsP Attention.Buried).getD p.atomIndices.2.1 default).natom) := by
  have h := buildProbeTriplets_demo Attention.Buried (by simp)
  have hmem : ((1, 0, 2) : ℕ × ℕ × ℕ) ∈
      ((build_probe_triplets (atomsP Attention.Buried) 1 0 1 ⟨1, 0, 0⟩ ⟨2, 0, 0⟩
        (Real.sqrt 5)).1).map Probe.atomIndices := by
    rw [h]
    simp
  obtain ⟨p, hp, hpe⟩ := List.mem_map.mp hmem
  refine ⟨p, hp, ?_⟩
  have hpi : p.atomIndices = (1, 0, 2) := hpe
  rw [hpi]
  norm_num [atomsP, atomP0, atomP1, atomNoRadius, List.getD_cons_zero,
    List.getD_cons_succ]

/-- C9 (witness for the amended theorem), on the demo store with `Buried`
attentions at i = 0, j = 1. -/
theorem claim9_probe_index_layout_witness :
    (∀ k, k < (atomsP Attention.Buried).length →
      ((atomsP Attention.Buried).getD k default).natom = k + 1) ∧
    (0 : ℕ) < 1 ∧ 1 < (atomsP Attention.Buried).length ∧
    (∀ p ∈ (build_probe_triplets (atomsP Attention.Buried) 1 0 1 ⟨1, 0, 0⟩ ⟨2, 0, 0⟩
        (Real.sqrt 5)).1,
      ∃ k, 0 < 1 ∧ 1 < k ∧ k < (atomsP Attention.Buried).length ∧
        (p.atomIndices = (0, 1, k) ∨ p.atomIndices = (1, 0, k))) := by
  have hnat : ∀ k, k < (atomsP Attention.Buried).length →
      ((atomsP Attention.Buried).getD k default).natom = k + 1 := by
    intro k hk
    have hk3 : k < 3 := by simpa [atomsP] using hk
    interval_cases k <;>
      norm_num [atomsP, atomP0, atomP1, atomP2, atomNoRadius,
        List.getD_cons_zero, List.getD_cons_succ]
  refine ⟨hnat, by norm_num, by norm_num [atomsP], ?_⟩
  exact claim9_probe_index_layout (atomsP Attention.Buried) 1 0 1 ⟨1, 0, 0⟩ ⟨2, 0, 0⟩
    (Real.sqrt 5) hnat (by norm_num) (by norm_num [atomsP])

end ScRs
